import Mathlib

/-!
Verification model of the go-partial rendering engine (src/partial.go,
src/service.go of github.com/donseba/go-partial).

The embedding is a shallow heap model: Go pointers and map references are
natural-number addresses into explicit heaps held in a `Store`.  Go maps
(`map[string]any`, `template.FuncMap`, the template cache) are association
lists; writing an existing key updates it in place, so map identity
(the address) and map contents are modelled separately, which is what the
mutation-heavy parts of the source (getGlobalData, clone, With) need.
`any` values in the data maps are modelled as strings.  The html/template
engine is an external collaborator of the package and is modelled as an
abstract, deterministic `Engine` (parse and execute); action hooks
(`func(ctx, p, data) (*Partial, error)`) are pure functions indexed by a
hook table.  Parent-pointer walks in the source are general recursion over
a possibly-cyclic heap, so they carry an explicit fuel argument; theorems
either supply enough fuel for the (finite) trees they quantify over or
prove fuel-independence.
-/

namespace GoPartial

/-- Go `map[string]any` values are modelled as strings. -/
abbrev AssocMap := List (String × String)

/-- A `template.FuncMap`: function names mapped to function identities
(each distinct Go function value gets a distinct number). -/
abbrev FuncTable := List (String × Nat)

/-- Go map read: `v, ok := m[k]`. -/
def mget {β : Type} : List (String × β) → String → Option β
  | [], _ => none
  | (k', v) :: rest, k => if k' = k then some v else mget rest k

/-- Go map write `m[k] = v`: updates the first binding of `k` in place,
appends when absent (association lists model unordered Go maps). -/
def mset {β : Type} : List (String × β) → String → β → List (String × β)
  | [], k, v => [(k, v)]
  | (k', v') :: rest, k, v =>
    if k' = k then (k, v) :: rest else (k', v') :: mset rest k v

/-- Go `for k, v := range src { dst[k] = v }`. -/
def mmerge {β : Type} (dst src : List (String × β)) : List (String × β) :=
  src.foldl (fun acc kv => mset acc kv.1 kv.2) dst

/-- Heap read at an address. -/
def hget {α : Type} : List (Nat × α) → Nat → Option α
  | [], _ => none
  | (b, x) :: rest, a => if b = a then some x else hget rest a

/-- Heap write at an existing address (a write to an absent address is a
no-op; addresses are only created by allocation). -/
def hset {α : Type} : List (Nat × α) → Nat → α → List (Nat × α)
  | [], _, _ => []
  | (b, y) :: rest, a, x =>
    if b = a then (a, x) :: rest else (b, y) :: hset rest a x

/-- `Selection` from the source: a default key and a map of key to node
address (`Partials map[string]*Partial`, `Default string`). -/
structure Selection where
  defaultKey : String
  partials : List (String × Nat)
deriving DecidableEq, Repr

/-- The parts of an `*http.Request` the engine reads: the URL (absent for
the zero request, whose `URL` field is nil) and the header map. -/
structure Request where
  url : Option String
  headers : List (String × String)
deriving DecidableEq, Repr

/-- `http.Header.Get`: empty string when the header is absent. -/
def headerGet (r : Request) (k : String) : String := (mget r.headers k).getD ""

/-- The `Partial` struct of src/partial.go.  Reference-typed fields
(`parent`, the four maps, `children` values, selection entries) hold heap
addresses; `action` and `templateAction` hold indices into an external
hook table; `combinedFunctions`, `data`, `layoutData`, `globalData` are
addresses of the corresponding maps.  The `fs`, `logger` and `mu` fields
play no part in the modelled behaviour and are omitted. -/
structure Partial where
  id : String
  parent : Option Nat
  request : Option Request
  swapOOB : Bool
  partialHeader : String
  selectHeader : String
  actionHeader : String
  requestedPartial : String
  requestedAction : String
  requestedSelect : String
  useCache : Bool
  templates : List String
  combinedFunctions : Nat
  data : Nat
  layoutData : Nat
  globalData : Nat
  children : List (String × Nat)
  oobChildren : List String
  selection : Option Selection
  templateAction : Option Nat
  action : Option Nat
deriving DecidableEq, Repr

/-- The heap: nodes, the string-map heap (data/layout/global maps), the
function-table heap, the process-wide template cache (`templateCache`),
instrumentation counters for template parses and template executions, and
the next fresh address. -/
structure Store where
  nodes : List (Nat × Partial)
  maps : List (Nat × AssocMap)
  funcs : List (Nat × FuncTable)
  cache : List (String × Nat)
  parses : Nat
  execs : Nat
  next : Nat
deriving DecidableEq, Repr

def Store.node (st : Store) (a : Nat) : Option Partial := hget st.nodes a

def Store.mapAt (st : Store) (a : Nat) : AssocMap := (hget st.maps a).getD []

def Store.funcsAt (st : Store) (a : Nat) : FuncTable := (hget st.funcs a).getD []

def Store.allocMap (st : Store) (m : AssocMap) : Store × Nat :=
  ({ st with maps := (st.next, m) :: st.maps, next := st.next + 1 }, st.next)

def Store.allocFuncs (st : Store) (ft : FuncTable) : Store × Nat :=
  ({ st with funcs := (st.next, ft) :: st.funcs, next := st.next + 1 }, st.next)

def Store.allocNode (st : Store) (p : Partial) : Store × Nat :=
  ({ st with nodes := (st.next, p) :: st.nodes, next := st.next + 1 }, st.next)

def Store.setNode (st : Store) (a : Nat) (p : Partial) : Store :=
  { st with nodes := hset st.nodes a p }

def Store.setMap (st : Store) (a : Nat) (m : AssocMap) : Store :=
  { st with maps := hset st.maps a m }

def Store.setFuncs (st : Store) (a : Nat) (ft : FuncTable) : Store :=
  { st with funcs := hset st.funcs a ft }

/-- The empty store. -/
def Store.empty : Store :=
  { nodes := [], maps := [], funcs := [], cache := [], parses := 0,
    execs := 0, next := 0 }

/-- Default header names (src: defaultTargetHeader etc. of the service
file matching src/partial.go). -/
def defaultTargetHeader : String := "X-Target"

def defaultSelectHeader : String := "X-Select"

def defaultActionHeader : String := "X-Action"

/-- `New(templates...)`: fresh node with id "root" and fresh empty
maps (combinedFunctions, data, layoutData, globalData, children,
oobChildren). -/
def New (st : Store) (templates : List String) : Store × Nat :=
  let rf := st.allocFuncs []
  let rd := rf.1.allocMap []
  let rl := rd.1.allocMap []
  let rg := rl.1.allocMap []
  rg.1.allocNode
    { id := "root", parent := none, request := none, swapOOB := false,
      partialHeader := "", selectHeader := "", actionHeader := "",
      requestedPartial := "", requestedAction := "", requestedSelect := "",
      useCache := false, templates := templates,
      combinedFunctions := rf.2, data := rd.2, layoutData := rl.2,
      globalData := rg.2, children := [], oobChildren := [],
      selection := none, templateAction := none, action := none }

/-- `p.ID(id)`. -/
def ID (st : Store) (a : Nat) (id : String) : Store :=
  match st.node a with
  | none => st
  | some p => st.setNode a { p with id := id }

/-- `NewID(id, templates...)`. -/
def NewID (st : Store) (id : String) (templates : List String) : Store × Nat :=
  let r := New st templates
  (ID r.1 r.2 id, r.2)

/-- `p.SetData(data)`: the caller's map literal is a fresh map. -/
def SetData (st : Store) (a : Nat) (m : AssocMap) : Store :=
  match st.node a with
  | none => st
  | some p =>
    let r := st.allocMap m
    r.1.setNode a { p with data := r.2 }

/-- `p.SetGlobalData(data)`. -/
def SetGlobalData (st : Store) (a : Nat) (m : AssocMap) : Store :=
  match st.node a with
  | none => st
  | some p =>
    let r := st.allocMap m
    r.1.setNode a { p with globalData := r.2 }

/-- `p.SetLayoutData(data)`. -/
def SetLayoutData (st : Store) (a : Nat) (m : AssocMap) : Store :=
  match st.node a with
  | none => st
  | some p =>
    let r := st.allocMap m
    r.1.setNode a { p with layoutData := r.2 }

/-- `p.UseCache(useCache)`. -/
def UseCache (st : Store) (a : Nat) (b : Bool) : Store :=
  match st.node a with
  | none => st
  | some p => st.setNode a { p with useCache := b }

/-- `p.WithAction(action)`: installs a hook by its index in the hook
table. -/
def WithAction (st : Store) (a : Nat) (hid : Nat) : Store :=
  match st.node a with
  | none => st
  | some p => st.setNode a { p with action := some hid }

/-- `p.With(child)`: `p.children[child.id] = child`, the child's
globalData is repointed at the parent's map (shared by reference), and
`child.parent = p`. -/
def With (st : Store) (pa ca : Nat) : Store :=
  match st.node pa, st.node ca with
  | some p, some c =>
    let st1 := st.setNode pa { p with children := mset p.children c.id ca }
    st1.setNode ca { c with globalData := p.globalData, parent := some pa }
  | _, _ => st

/-- `p.WithOOB(child)`: `With` then mark the id in `oobChildren`
(a set, so adding an already-present id is a no-op). -/
def WithOOB (st : Store) (pa ca : Nat) : Store :=
  let st1 := With st pa ca
  match st1.node pa, st1.node ca with
  | some p, some c =>
    st1.setNode pa
      { p with oobChildren :=
          if c.id ∈ p.oobChildren then p.oobChildren else p.oobChildren ++ [c.id] }
  | _, _ => st1

/-- `p.MergeData(data, override)` on a node value: writes into the node's
data map. -/
def MergeDataV (st : Store) (p : Partial) (data : AssocMap) (override : Bool) :
    Store :=
  st.setMap p.data
    (data.foldl
      (fun acc kv =>
        if (mget acc kv.1).isSome ∧ ¬override then acc else mset acc kv.1 kv.2)
      (st.mapAt p.data))

/-! ### Parent-chain getters

Each getter of the source that walks `p.parent` carries a fuel argument
(the Go call stack); the fuel-exhausted branch is unreachable for the
finite trees the theorems quantify over. -/

/-- `p.getPartialHeader()`. -/
def getPartialHeaderV : Nat → Store → Partial → String
  | 0, _, _ => defaultTargetHeader
  | f + 1, st, p =>
    if p.partialHeader ≠ "" then p.partialHeader
    else
      match p.parent with
      | some pa =>
        match st.node pa with
        | some q => getPartialHeaderV f st q
        | none => defaultTargetHeader
      | none => defaultTargetHeader

/-- `p.getSelectHeader()`. -/
def getSelectHeaderV : Nat → Store → Partial → String
  | 0, _, _ => defaultSelectHeader
  | f + 1, st, p =>
    if p.selectHeader ≠ "" then p.selectHeader
    else
      match p.parent with
      | some pa =>
        match st.node pa with
        | some q => getSelectHeaderV f st q
        | none => defaultSelectHeader
      | none => defaultSelectHeader

/-- `p.getActionHeader()`. -/
def getActionHeaderV : Nat → Store → Partial → String
  | 0, _, _ => defaultActionHeader
  | f + 1, st, p =>
    if p.actionHeader ≠ "" then p.actionHeader
    else
      match p.parent with
      | some pa =>
        match st.node pa with
        | some q => getActionHeaderV f st q
        | none => defaultActionHeader
      | none => defaultActionHeader

/-- `p.getRequestedPartial()`. -/
def getRequestedPartialV : Nat → Store → Partial → String
  | 0, _, _ => ""
  | f + 1, st, p =>
    if p.requestedPartial ≠ "" then p.requestedPartial
    else
      match p.parent with
      | some pa =>
        match st.node pa with
        | some q => getRequestedPartialV f st q
        | none => ""
      | none => ""

/-- `p.GetRequestedAction()`. -/
def getRequestedActionV : Nat → Store → Partial → String
  | 0, _, _ => ""
  | f + 1, st, p =>
    if p.requestedAction ≠ "" then p.requestedAction
    else
      match p.parent with
      | some pa =>
        match st.node pa with
        | some q => getRequestedActionV f st q
        | none => ""
      | none => ""

/-- `p.getRequestedSelect()`. -/
def getRequestedSelectV : Nat → Store → Partial → String
  | 0, _, _ => ""
  | f + 1, st, p =>
    if p.requestedSelect ≠ "" then p.requestedSelect
    else
      match p.parent with
      | some pa =>
        match st.node pa with
        | some q => getRequestedSelectV f st q
        | none => ""
      | none => ""

/-- `p.getRequest()`: falls back to the zero `&http.Request{}` (whose URL
is nil). -/
def getRequestV : Nat → Store → Partial → Request
  | 0, _, _ => { url := none, headers := [] }
  | f + 1, st, p =>
    match p.request with
    | some r => r
    | none =>
      match p.parent with
      | some pa =>
        match st.node pa with
        | some q => getRequestV f st q
        | none => { url := none, headers := [] }
      | none => { url := none, headers := [] }

/-- `p.getGlobalData()`: returns the address of the map the Go function
returns.  For a non-root node the parent's (recursively obtained) map is
written in place with the node's own entries — the source mutates the
map it returns, and the model keeps that store effect. -/
def getGlobalDataV : Nat → Store → Partial → Store × Nat
  | 0, st, p => (st, p.globalData)
  | f + 1, st, p =>
    match p.parent with
    | none => (st, p.globalData)
    | some pa =>
      match st.node pa with
      | none => (st, p.globalData)
      | some q =>
        let r := getGlobalDataV f st q
        let merged := mmerge (r.1.mapAt r.2) (r.1.mapAt p.globalData)
        (r.1.setMap r.2 merged, r.2)

/-- `p.getLayoutData()`: same shape as `getGlobalData`. -/
def getLayoutDataV : Nat → Store → Partial → Store × Nat
  | 0, st, p => (st, p.layoutData)
  | f + 1, st, p =>
    match p.parent with
    | none => (st, p.layoutData)
    | some pa =>
      match st.node pa with
      | none => (st, p.layoutData)
      | some q =>
        let r := getLayoutDataV f st q
        let merged := mmerge (r.1.mapAt r.2) (r.1.mapAt p.layoutData)
        (r.1.setMap r.2 merged, r.2)

/-- `p.getFuncMap()`: for a non-root node the parent's entries are merged
into `p.combinedFunctions` (the parent's entries overwrite the node's);
the node's own map is returned in every branch. -/
def getFuncMapV : Nat → Store → Partial → Store × Nat
  | 0, st, p => (st, p.combinedFunctions)
  | f + 1, st, p =>
    match p.parent with
    | none => (st, p.combinedFunctions)
    | some pa =>
      match st.node pa with
      | none => (st, p.combinedFunctions)
      | some q =>
        let r := getFuncMapV f st q
        let merged :=
          mmerge (r.1.funcsAt p.combinedFunctions) (r.1.funcsAt r.2)
        (r.1.setFuncs p.combinedFunctions merged, p.combinedFunctions)

/-! ### Template functions, data context, engine -/

/-- The `Data` struct handed to hooks and to template execution: request
URL and the three data scopes (`Data`, `Service`, `Layout`), read as
contents of the maps the source passes by reference. -/
structure Data where
  url : Option String
  data : AssocMap
  service : AssocMap
  layout : AssocMap
deriving DecidableEq, Repr

/-- An action hook `func(ctx, p, data) (*Partial, error)`, modelled as a
pure function from the node value and the render data to a replacement
node or an error. -/
abbrev Hook := Partial → Data → Except String Partial

/-- The external hook table `Partial.action` / `templateAction` index
into. -/
abbrev Hooks := Nat → Hook

/-- The html/template collaborator: `parse` models
`template.ParseFS/ParseFiles` (compiled artifacts are handles), `exec`
models `tmpl.Execute` as a deterministic function of the artifact, the
node state visible to the registered template functions (swapOOB flag,
ids, headers) and the render data; the second component is the execution
error. -/
structure Engine where
  parse : List String → Except String Nat
  exec : Nat → Partial → Data → String × Option String

/-- The names installed by `getFuncs` over the combined map, in source
order; their identities are modelled as their position (the claims never
depend on builtin closure identity). -/
def builtinFunctionNames : List String :=
  ["child", "selection", "action", "url", "context", "partialHeader",
   "requestedPartial", "ifRequestedPartial", "selectHeader",
   "requestedSelect", "ifRequestedSelect", "actionHeader",
   "requestedAction", "ifRequestedAction", "swapOOB", "ifSwapOOB"]

/-- `getFuncs` writes the builtins into the map returned by
`getFuncMap`. -/
def installBuiltins (ft : FuncTable) : FuncTable :=
  (builtinFunctionNames.enum).foldl (fun acc kv => mset acc kv.2 kv.1) ft

/-- `p.getFuncs(data)`: merge the ancestor chain into the node's own map,
then install the builtin closures into that same map; the map's address
(what `reflect.ValueOf(functions).Pointer()` observes) is returned. -/
def getFuncsV (f : Nat) (st : Store) (p : Partial) : Store × Nat :=
  let r := getFuncMapV f st p
  (r.1.setFuncs r.2 (installBuiltins (r.1.funcsAt r.2)), r.2)

/-- The `requestedSelect` template function registered by `getFuncs`:
`if p.getRequestedSelect() == "" { return p.selection.Default }`.
`none` marks the nil-pointer dereference that happens when
`p.selection` is unset and the requested select value is empty. -/
def requestedSelectFunc (f : Nat) (st : Store) (p : Partial) : Option String :=
  if getRequestedSelectV f st p = "" then
    match p.selection with
    | none => none
    | some s => some s.defaultKey
  else some (getRequestedSelectV f st p)

/-- Hexadecimal rendering of `fmt.Sprintf("%x", ptr)` (lowercase, most
significant digit first). -/
def hexCharsAux : Nat → Nat → List Char → List Char
  | 0, _, acc => acc
  | f + 1, n, acc =>
    if n < 16 then Nat.digitChar n :: acc
    else hexCharsAux f (n / 16) (Nat.digitChar (n % 16) :: acc)

def natHex (n : Nat) : String := String.mk (hexCharsAux (n + 1) n [])

/-- Decoding a hex digit character (inverse of `Nat.digitChar` below 16;
used to prove the cache key injective in the pointer). -/
def hexVal (c : Char) : Nat :=
  if c.toNat ≤ 57 then c.toNat - 48 else c.toNat - 87

/-- Decoding a most-significant-first hex digit list. -/
def decodeHex (l : List Char) : Nat :=
  l.foldl (fun a c => 16 * a + hexVal c) 0

/-- `p.generateCacheKey(templates, funcMapPtr)`: every template name
followed by ";", then "funcMap:" and the function-map pointer in hex. -/
def generateCacheKey (templates : List String) (funcMapPtr : Nat) : String :=
  (templates.foldl (fun acc t => acc ++ t ++ ";") "") ++ "funcMap:" ++
    natHex funcMapPtr

/-- `p.getOrParseTemplate(cacheKey, functions)`.  The first unlocked cache
check, the per-key mutex and the second check collapse in this sequential
model (the interleaved version is the `DCL` system below); a parse is
counted whenever the template engine is asked to compile. -/
def getOrParseTemplate (E : Engine) (st : Store) (p : Partial) (key : String) :
    Store × Except String Nat :=
  match mget st.cache key, p.useCache with
  | some t, true => (st, Except.ok t)
  | _, _ =>
    match E.parse p.templates with
    | Except.error e =>
      ({ st with parses := st.parses + 1 },
        Except.error ("error parsing templates: " ++ e))
    | Except.ok t =>
      let st1 := { st with parses := st.parses + 1 }
      if p.useCache then
        ({ st1 with cache := (key, t) :: st1.cache }, Except.ok t)
      else (st1, Except.ok t)

/-- The `Data` literal built at the top of `renderSelf` (global data is
resolved before layout data, both mutating the store). -/
def buildData (f : Nat) (st : Store) (p : Partial) (r : Option Request) :
    Store × Data :=
  let g := getGlobalDataV f st p
  let l := getLayoutDataV f g.1 p
  (l.1,
    { url := r.bind Request.url, data := l.1.mapAt p.data,
      service := l.1.mapAt g.2, layout := l.1.mapAt l.2 })

/-- The tail of `renderSelf` after the action hook: resolve the function
map, compute the cache key from the map's pointer, fetch or parse the
template, execute it. -/
def renderCore (E : Engine) (f : Nat) (st : Store) (q : Partial) (d : Data) :
    Store × String × Option String :=
  let fr := getFuncsV f st q
  let key := generateCacheKey q.templates fr.2
  match getOrParseTemplate E fr.1 q key with
  | (st3, Except.error e) => (st3, "", some e)
  | (st3, Except.ok t) =>
    let er := E.exec t q d
    let st4 := { st3 with execs := st3.execs + 1 }
    match er.2 with
    | some e =>
      (st4, "",
        some ("error executing template '" ++ (q.templates.headD "") ++ "': " ++ e))
    | none => (st4, er.1, none)

/-- `p.renderSelf(ctx, r)` on a node value. -/
def renderSelfV (E : Engine) (H : Hooks) (f : Nat) (st : Store) (p : Partial)
    (r : Option Request) : Store × String × Option String :=
  if p.templates = [] then
    (st, "", some "no templates provided for rendering")
  else
    let bd := buildData f st p r
    match p.action with
    | some hid =>
      match H hid p bd.2 with
      | Except.error e =>
        (bd.1, "", some ("error in action function: " ++ e))
      | Except.ok q => renderCore E f bd.1 q bd.2
    | none => renderCore E f bd.1 p bd.2

/-- `renderSelf` through a node address. -/
def renderSelf (E : Engine) (H : Hooks) (f : Nat) (st : Store) (a : Nat)
    (r : Option Request) : Store × String × Option String :=
  match st.node a with
  | none => (st, "", none)
  | some p => renderSelfV E H f st p r

/-- `p.clone()`: a fresh node value; the four maps are copied into fresh
addresses, `children`/`oobChildren` entries are copied, and — matching
the source's struct literal field-for-field — `requestedAction`,
`requestedSelect`, `templateAction` and `action` are NOT copied (they get
their zero values). -/
def clone (st : Store) (p : Partial) : Store × Partial :=
  let rf := st.allocFuncs (st.funcsAt p.combinedFunctions)
  let rd := rf.1.allocMap (rf.1.mapAt p.data)
  let rl := rd.1.allocMap (rd.1.mapAt p.layoutData)
  let rg := rl.1.allocMap (rl.1.mapAt p.globalData)
  (rg.1,
    { id := p.id, parent := p.parent, request := p.request,
      swapOOB := p.swapOOB, partialHeader := p.partialHeader,
      selectHeader := p.selectHeader, actionHeader := p.actionHeader,
      requestedPartial := p.requestedPartial, requestedAction := "",
      requestedSelect := "", useCache := p.useCache,
      templates := p.templates, combinedFunctions := rf.2, data := rd.2,
      layoutData := rl.2, globalData := rg.2, children := p.children,
      oobChildren := p.oobChildren, selection := p.selection,
      templateAction := none, action := none })

/-- `p.renderChildPartial(ctx, id, data)`: look the child up in the
children map, clone it, reparent the clone, merge the call data into the
clone, render the clone.  A missing child yields ("", nil). -/
def renderChildPartial (E : Engine) (H : Hooks) (f : Nat) (st : Store)
    (a : Nat) (id : String) (data : Option AssocMap) :
    Store × String × Option String :=
  match st.node a with
  | none => (st, "", none)
  | some p =>
    match mget p.children id with
    | none => (st, "", none)
    | some ca =>
      match st.node ca with
      | none => (st, "", none)
      | some child =>
        let cl := clone st child
        let c1 := { cl.2 with parent := some a }
        let st2 :=
          match data with
          | none => cl.1
          | some dm => MergeDataV cl.1 c1 dm true
        renderSelfV E H f st2 c1 (some (getRequestV f st2 p))

/-- The body of `renderOOBChildren`: iterate the `oobChildren` ids; for
each id present in the children map, set the child's `swapOOB` field in
place (a store write on the original child) and render it; a child error
aborts with the wrapped message. -/
def oobLoop (E : Engine) (H : Hooks) (f : Nat) :
    Store → List String → List (String × Nat) → Bool → Option Request →
    String → Store × String × Option String
  | st, [], _, _, _, acc => (st, acc, none)
  | st, id :: rest, childMap, swap, r, acc =>
    match mget childMap id with
    | none => oobLoop E H f st rest childMap swap r acc
    | some ca =>
      match st.node ca with
      | none => oobLoop E H f st rest childMap swap r acc
      | some c =>
        let st1 := st.setNode ca { c with swapOOB := swap }
        match renderSelf E H f st1 ca r with
        | (st2, _, some e) =>
          (st2, "", some ("error rendering OOB child '" ++ id ++ "': " ++ e))
        | (st2, out, none) =>
          oobLoop E H f st2 rest childMap swap r (acc ++ out)

/-- `p.renderOOBChildren(ctx, r, swapOOB)`. -/
def renderOOBChildren (E : Engine) (H : Hooks) (f : Nat) (st : Store)
    (a : Nat) (swap : Bool) (r : Option Request) :
    Store × String × Option String :=
  match st.node a with
  | none => (st, "", none)
  | some p => oobLoop E H f st p.oobChildren p.children swap r ""

/-! ### Tree lookup

`recursiveChildLookup(id, visited)` is a depth-first search over the
children maps, guarded by a visited set keyed by node id and threaded
through the whole search (the Go visited map is shared by reference
across sibling subtrees).  The recursion is phrased over an explicit
worklist of addresses still to try in depth-first order — popping a node
checks the visited set, then its children map for the target key, then
pushes its children in front — with fuel counting the pops; `none` is
fuel exhaustion. -/
def rclF (st : Store) (id : String) :
    Nat → List Nat → Finset String → Option (Option Nat × Finset String)
  | 0, _, _ => none
  | _ + 1, [], vis => some (none, vis)
  | f + 1, a :: rest, vis =>
    match st.node a with
    | none => rclF st id f rest vis
    | some p =>
      if p.id ∈ vis then rclF st id f rest vis
      else
        let vis1 := insert p.id vis
        match mget p.children id with
        | some ca => some (some ca, vis1)
        | none => rclF st id f (p.children.map Prod.snd ++ rest) vis1

/-- The set of node ids present in the store (the measure for the
visited-set guard: each pop of a fresh node consumes one of these). -/
def idsOf (st : Store) : Finset String :=
  (st.nodes.map (fun kv => kv.2.id)).toFinset

/-- A fuel budget sufficient for any search over `st` (one pop per node
occurrence plus one per children entry, plus slack). -/
def rclBound (st : Store) : Nat :=
  st.nodes.foldl (fun acc kv => acc + kv.2.children.length + 1) 1 + 1

/-- `p.recursiveChildLookup(id, make(map[string]bool))` with the
established fuel budget; fuel exhaustion (unreachable, see the C6
theorems) collapses to "not found". -/
def recursiveChildLookup (st : Store) (a : Nat) (id : String) : Option Nat :=
  match rclF st id (rclBound st) [a] ∅ with
  | some (r, _) => r
  | none => none

/-- The id of the node at an address (used for error messages). -/
def nodeId (st : Store) (a : Nat) : String :=
  match st.node a with
  | some p => p.id
  | none => ""

/-- `p.renderWithTarget(ctx, r)`: empty or own-id target renders self and
then the parent's OOB children with the swap flag; otherwise the target
is looked up in the subtree — absence is the TargetNotFound error (empty
markup) — and rendering re-enters on the found child.  The first fuel
bounds this re-entry recursion. -/
def renderWithTarget (E : Engine) (H : Hooks) :
    Nat → Nat → Store → Nat → Option Request → Store × String × Option String
  | 0, _, st, _, _ => (st, "", some "render recursion fuel exhausted")
  | rf + 1, f, st, a, r =>
    match st.node a with
    | none => (st, "", none)
    | some p =>
      let t := getRequestedPartialV f st p
      if t = "" ∨ t = p.id then
        match renderSelf E H f st a r with
        | (st1, _, some e) => (st1, "", some e)
        | (st1, out, none) =>
          match p.parent with
          | none => (st1, out, none)
          | some pa =>
            match renderOOBChildren E H f st1 pa true r with
            | (st2, _, some oe) =>
              (st2, "",
                some ("error rendering OOB children of parent with ID '" ++
                  nodeId st2 pa ++ "': " ++ oe))
            | (st2, oobOut, none) => (st2, out ++ oobOut, none)
      else
        match recursiveChildLookup st a t with
        | none =>
          (st, "",
            some ("requested partial " ++ t ++ " not found in parent " ++ p.id))
        | some ca => renderWithTarget E H rf f st ca r

/-- The header reads at the top of `RenderWithRequest`: store the request
on the node, then set `requestedPartial`, `requestedAction`,
`requestedSelect` from the request headers named by the resolved header
names. -/
def applyRequest (f : Nat) (st : Store) (a : Nat) (req : Request) : Store :=
  match st.node a with
  | none => st
  | some p =>
    let p1 := { p with request := some req }
    let st1 := st.setNode a p1
    let p2 :=
      { p1 with requestedPartial := headerGet req (getPartialHeaderV f st1 p1) }
    let st2 := st1.setNode a p2
    let p3 :=
      { p2 with requestedAction := headerGet req (getActionHeaderV f st2 p2) }
    let st3 := st2.setNode a p3
    let p4 :=
      { p3 with requestedSelect := headerGet req (getSelectHeaderV f st3 p3) }
    st3.setNode a p4

/-- `p.RenderWithRequest(ctx, r)`. -/
def RenderWithRequest (E : Engine) (H : Hooks) (rf f : Nat) (st : Store)
    (a : Nat) (req : Request) : Store × String × Option String :=
  match st.node a with
  | none => (st, "", some "partial is not initialized")
  | some _ =>
    renderWithTarget E H rf f (applyRequest f st a req) a (some req)

/-! ### The concurrent template store (claim C7)

An interleaving model of N goroutines running `getOrParseTemplate` for
one cache key with a successful compile.  Program counters follow the
source: the first `templateCache.Load` without the lock
(`check1Hit`/`check1Miss`), `mutexCache.LoadOrStore` + `mu.Lock()`
(`acquire`), the second `Load` under the lock (`check2Hit`), the
`ParseFS/ParseFiles` call (`parse`), and `templateCache.Store` followed
by the deferred `mu.Unlock()` (`storeRelease`).  `cached` is whether
`templateCache` holds the key; `lock` is the per-key mutex holder. -/
inductive TPC where
  | start
  | waiting
  | locked
  | storing
  | done
deriving DecidableEq, Repr

structure CState where
  useCache : Bool
  cached : Bool
  lock : Option Nat
  pcs : List TPC
  parses : Nat
deriving DecidableEq, Repr

def pcAt (s : CState) (i : Nat) : Option TPC := s.pcs.get? i

/-- One interleaved step of some goroutine `i` in `getOrParseTemplate`. -/
inductive CStep : CState → CState → Prop
  | check1Hit (s : CState) (i : Nat) :
      pcAt s i = some TPC.start → s.useCache = true → s.cached = true →
      CStep s { s with pcs := s.pcs.set i TPC.done }
  | check1Miss (s : CState) (i : Nat) :
      pcAt s i = some TPC.start → (s.useCache = false ∨ s.cached = false) →
      CStep s { s with pcs := s.pcs.set i TPC.waiting }
  | acquire (s : CState) (i : Nat) :
      pcAt s i = some TPC.waiting → s.lock = none →
      CStep s { s with lock := some i, pcs := s.pcs.set i TPC.locked }
  | check2Hit (s : CState) (i : Nat) :
      pcAt s i = some TPC.locked → s.lock = some i → s.useCache = true →
      s.cached = true →
      CStep s { s with lock := none, pcs := s.pcs.set i TPC.done }
  | parse (s : CState) (i : Nat) :
      pcAt s i = some TPC.locked → s.lock = some i →
      (s.useCache = false ∨ s.cached = false) →
      CStep s { s with pcs := s.pcs.set i TPC.storing, parses := s.parses + 1 }
  | storeRelease (s : CState) (i : Nat) :
      pcAt s i = some TPC.storing → s.lock = some i →
      CStep s
        { s with cached := s.cached || s.useCache, lock := none,
                 pcs := s.pcs.set i TPC.done }

/-- N goroutines about to enter `getOrParseTemplate`, cache cold. -/
def cInit (uc : Bool) (n : Nat) : CState :=
  { useCache := uc, cached := false, lock := none,
    pcs := List.replicate n TPC.start, parses := 0 }

/-- Reachability under interleaved steps. -/
def CReach : CState → CState → Prop := Relation.ReflTransGen CStep

/-- The inductive invariant of the double-checked-locking store (for
`useCache = true`): a goroutine at `locked` or `storing` holds the
per-key mutex (hence at most one such goroutine), and the parse counter
is accounted for by the cache bit and the single in-flight `storing`
goroutine. -/
def CInv (s : CState) : Prop :=
  s.useCache = true ∧
  (∀ i, pcAt s i = some TPC.locked ∨ pcAt s i = some TPC.storing →
    s.lock = some i) ∧
  ((s.parses = 0 ∧ s.cached = false ∧ ∀ i, pcAt s i ≠ some TPC.storing) ∨
   (s.parses = 1 ∧ s.cached = true ∧ ∀ i, pcAt s i ≠ some TPC.storing) ∨
   (s.parses = 1 ∧ s.cached = false ∧ ∃ i, pcAt s i = some TPC.storing))

/-! ### Concrete instances used by witnesses and counterexamples -/

/-- A placeholder node (for total reads of optional results). -/
def dummyNode : Partial :=
  { id := "", parent := none, request := none, swapOOB := false,
    partialHeader := "", selectHeader := "", actionHeader := "",
    requestedPartial := "", requestedAction := "", requestedSelect := "",
    useCache := false, templates := [], combinedFunctions := 0, data := 0,
    layoutData := 0, globalData := 0, children := [], oobChildren := [],
    selection := none, templateAction := none, action := none }

/-- A concrete template engine: parsing always succeeds, execution prints
the node id and whether the swap flag is set. -/
def egEngine : Engine :=
  { parse := fun ts => Except.ok (ts.length + 100),
    exec := fun _ n _ =>
      ("[" ++ n.id ++ (if n.swapOOB then "+swap" else "") ++ "]", none) }

/-- A concrete hook table: hook 0 fails with "boom", every other hook is
the identity. -/
def egHooks : Hooks := fun hid p _ =>
  if hid = 0 then Except.error "boom" else Except.ok p

/-- The example tree of the spec's §8: a root with a "content" child and
an OOB "footer" child, built with the source's builders. -/
def egStore : Store :=
  let b0 := New Store.empty ["index.html"]
  let b1 := NewID b0.1 "content" ["content.html"]
  let b2 := NewID b1.1 "footer" ["footer.html"]
  WithOOB (With b2.1 b0.2 b1.2) b0.2 b2.2

def egRootA : Nat := 4

def egContentA : Nat := 9

def egFooterA : Nat := 14

/-- A request targeting the "content" sibling. -/
def egReqContent : Request :=
  { url := some "/", headers := [("X-Target", "content")] }

/-- The example tree after `RenderWithRequest` stored `egReqContent`'s
headers on the root. -/
def egStoreT : Store := applyRequest 2 egStore egRootA egReqContent

def egRootT : Partial := (egStoreT.node egRootA).getD dummyNode

def egContent : Partial := (egStoreT.node egContentA).getD dummyNode

def egFooter : Partial := (egStoreT.node egFooterA).getD dummyNode

/-- A request targeting an id absent from the tree. -/
def egReqMissing : Request :=
  { url := some "/", headers := [("X-Target", "zzz")] }

/-- The root node after `RenderWithRequest` has stored the request and the
requested-target headers of `egReqMissing`. -/
def c1Node : Partial :=
  ((applyRequest 2 egStore egRootA egReqMissing).node egRootA).getD dummyNode

/-- Two root nodes with the same template list and extensionally
identical function tables held in distinct map instances
(`c3Store.funcsAt` 0 and 5 are equal lists at different addresses),
both with caching enabled. -/
def c3Store : Store :=
  let b0 := New Store.empty ["tpl.html"]
  let b1 := New b0.1 ["tpl.html"]
  UseCache (UseCache b1.1 b0.2 true) b1.2 true

def c3NodeA : Partial := (c3Store.node 4).getD dummyNode

def c3NodeB : Partial := (c3Store.node 9).getD dummyNode

/-- The C4 tree: the root holds global `Title = "root"` and layout
`Section = "top"`; the child shadows both in its own maps. -/
def c4Store : Store :=
  let b0 := New Store.empty ["layout.html"]
  let b1 := NewID b0.1 "content" ["content.html"]
  let st := SetGlobalData b1.1 b0.2 [("Title", "root")]
  let st := SetLayoutData st b0.2 [("Section", "top")]
  let st := With st b0.2 b1.2
  let st := SetGlobalData st b1.2 [("Title", "child")]
  SetLayoutData st b1.2 [("Section", "inner")]

def c4RootA : Nat := 4

def c4ChildA : Nat := 9

def c4Root : Partial := (c4Store.node c4RootA).getD dummyNode

def c4Child : Partial := (c4Store.node c4ChildA).getD dummyNode

/-- Two nodes identical except for their id, both with the failing
hook 0 installed. -/
def c5NodeA : Partial :=
  { dummyNode with id := "a", templates := ["t.html"], action := some 0 }

def c5NodeB : Partial :=
  { dummyNode with id := "b", templates := ["t.html"], action := some 0 }

/-- A chain root → "x" → "x" → "t": the target "t" sits three levels
deep behind two intermediate nodes that share the id "x". -/
def c6Store : Store :=
  let b0 := NewID Store.empty "r" ["t.html"]
  let b1 := NewID b0.1 "x" ["t.html"]
  let b2 := NewID b1.1 "x" ["t.html"]
  let b3 := NewID b2.1 "t" ["t.html"]
  With (With (With b3.1 b2.2 b3.2) b1.2 b2.2) b0.2 b1.2

/-- The same chain with distinct intermediate ids "x", "y". -/
def c6StoreD : Store :=
  let b0 := NewID Store.empty "r" ["t.html"]
  let b1 := NewID b0.1 "x" ["t.html"]
  let b2 := NewID b1.1 "y" ["t.html"]
  let b3 := NewID b2.1 "t" ["t.html"]
  With (With (With b3.1 b2.2 b3.2) b1.2 b2.2) b0.2 b1.2

/-- A node with no selection map installed. -/
def c9Node : Partial :=
  { dummyNode with id := "tabs", templates := ["tabs.html"] }

/-! ## Theorems

General lemmas about the map/heap operations and framing lemmas about the
store effects of the render pipeline, then one theorem per claim (with
its witness or counterexample). -/

theorem mget_eq_none {β : Type} (l : List (String × β)) (k : String)
    (h : ∀ kv ∈ l, kv.1 ≠ k) : mget l k = none := by
  induction l with
  | nil => rfl
  | cons kv rest ih =>
    obtain ⟨b, y⟩ := kv
    simp only [mget]
    rw [if_neg (h (b, y) (by simp))]
    exact ih fun kv' hm => h kv' (by simp [hm])

theorem mget_mem {β : Type} {l : List (String × β)} {k : String} {v : β}
    (h : mget l k = some v) : (k, v) ∈ l := by
  induction l with
  | nil => simp [mget] at h
  | cons kv rest ih =>
    obtain ⟨b, y⟩ := kv
    simp only [mget] at h
    by_cases hb : b = k
    · rw [if_pos hb] at h
      obtain rfl := Option.some.inj h
      simp [hb]
    · rw [if_neg hb] at h
      exact List.mem_cons_of_mem _ (ih h)

theorem hget_mem {α : Type} {h : List (Nat × α)} {a : Nat} {x : α}
    (hx : hget h a = some x) : (a, x) ∈ h := by
  induction h with
  | nil => simp [hget] at hx
  | cons kv rest ih =>
    obtain ⟨b, y⟩ := kv
    simp only [hget] at hx
    by_cases hb : b = a
    · rw [if_pos hb] at hx
      obtain rfl := Option.some.inj hx
      simp [hb]
    · rw [if_neg hb] at hx
      exact List.mem_cons_of_mem _ (ih hx)

theorem hget_hset_ne {α : Type} (h : List (Nat × α)) (a b : Nat) (x : α)
    (hne : b ≠ a) : hget (hset h a x) b = hget h b := by
  induction h with
  | nil => rfl
  | cons kv rest ih =>
    obtain ⟨c, y⟩ := kv
    simp only [hset]
    by_cases hc : c = a
    · rw [if_pos hc]
      simp only [hget]
      rw [if_neg (fun hab => hne hab.symm), if_neg (by rw [hc]; exact fun hab => hne hab.symm)]
    · rw [if_neg hc]
      simp only [hget]
      by_cases hcb : c = b
      · rw [if_pos hcb, if_pos hcb]
      · rw [if_neg hcb, if_neg hcb]
        exact ih

theorem hget_hset_self {α : Type} (h : List (Nat × α)) (a : Nat) (x y : α)
    (hy : hget h a = some y) : hget (hset h a x) a = some x := by
  induction h with
  | nil => simp [hget] at hy
  | cons kv rest ih =>
    obtain ⟨c, z⟩ := kv
    simp only [hget, hset] at hy ⊢
    by_cases hc : c = a
    · rw [if_pos hc]
      simp [hget]
    · rw [if_neg hc]
      simp only [hget]
      rw [if_neg hc]
      rw [if_neg hc] at hy
      exact ih hy

theorem getGlobalDataV_shape (f : Nat) (st : Store) (p : Partial) :
    ∃ m, (getGlobalDataV f st p).1 = { st with maps := m } := by
  induction f generalizing p with
  | zero => exact ⟨st.maps, rfl⟩
  | succ f ih =>
    cases hp : p.parent with
    | none => exact ⟨st.maps, by simp [getGlobalDataV, hp]⟩
    | some pa =>
      cases hq : st.node pa with
      | none => exact ⟨st.maps, by simp [getGlobalDataV, hp, hq]⟩
      | some q =>
        obtain ⟨m, hm⟩ := ih q
        exact ⟨_, by simp only [getGlobalDataV, hp, hq, Store.setMap]; rw [hm]⟩

theorem getLayoutDataV_shape (f : Nat) (st : Store) (p : Partial) :
    ∃ m, (getLayoutDataV f st p).1 = { st with maps := m } := by
  induction f generalizing p with
  | zero => exact ⟨st.maps, rfl⟩
  | succ f ih =>
    cases hp : p.parent with
    | none => exact ⟨st.maps, by simp [getLayoutDataV, hp]⟩
    | some pa =>
      cases hq : st.node pa with
      | none => exact ⟨st.maps, by simp [getLayoutDataV, hp, hq]⟩
      | some q =>
        obtain ⟨m, hm⟩ := ih q
        exact ⟨_, by simp only [getLayoutDataV, hp, hq, Store.setMap]; rw [hm]⟩

theorem buildData_shape (f : Nat) (st : Store) (p : Partial)
    (r : Option Request) :
    ∃ m, (buildData f st p r).1 = { st with maps := m } := by
  obtain ⟨m1, h1⟩ := getGlobalDataV_shape f st p
  obtain ⟨m2, h2⟩ := getLayoutDataV_shape f (getGlobalDataV f st p).1 p
  exact ⟨_, by simp only [buildData]; rw [h2, h1]⟩

theorem getFuncMapV_shape (f : Nat) (st : Store) (p : Partial) :
    ∃ fn, (getFuncMapV f st p).1 = { st with funcs := fn } := by
  induction f generalizing p with
  | zero => exact ⟨st.funcs, rfl⟩
  | succ f ih =>
    cases hp : p.parent with
    | none => exact ⟨st.funcs, by simp [getFuncMapV, hp]⟩
    | some pa =>
      cases hq : st.node pa with
      | none => exact ⟨st.funcs, by simp [getFuncMapV, hp, hq]⟩
      | some q =>
        obtain ⟨fn, hfn⟩ := ih q
        exact ⟨_, by simp only [getFuncMapV, hp, hq, Store.setFuncs]; rw [hfn]⟩

theorem getFuncMapV_addr (f : Nat) (st : Store) (p : Partial) :
    (getFuncMapV f st p).2 = p.combinedFunctions := by
  cases f with
  | zero => rfl
  | succ f =>
    cases hp : p.parent with
    | none => simp [getFuncMapV, hp]
    | some pa =>
      cases hq : st.node pa with
      | none => simp [getFuncMapV, hp, hq]
      | some q => simp [getFuncMapV, hp, hq]

theorem getFuncsV_addr (f : Nat) (st : Store) (p : Partial) :
    (getFuncsV f st p).2 = p.combinedFunctions := by
  simp [getFuncsV, getFuncMapV_addr]

theorem getFuncsV_shape (f : Nat) (st : Store) (p : Partial) :
    ∃ fn, (getFuncsV f st p).1 = { st with funcs := fn } := by
  obtain ⟨fn, hfn⟩ := getFuncMapV_shape f st p
  exact ⟨_, by simp only [getFuncsV, Store.setFuncs]; rw [hfn]⟩

theorem getOrParseTemplate_shape (E : Engine) (st : Store) (p : Partial)
    (key : String) :
    ∃ c pc, (getOrParseTemplate E st p key).1 =
      { st with cache := c, parses := pc } := by
  simp only [getOrParseTemplate]
  cases hc : mget st.cache key with
  | some t =>
    cases hu : p.useCache with
    | true => exact ⟨st.cache, st.parses, rfl⟩
    | false =>
      cases hp : E.parse p.templates with
      | error e => exact ⟨st.cache, st.parses + 1, rfl⟩
      | ok t' =>
        refine ⟨st.cache, st.parses + 1, ?_⟩
        simp [hu]
  | none =>
    cases hp : E.parse p.templates with
    | error e => exact ⟨st.cache, st.parses + 1, rfl⟩
    | ok t' =>
      cases hu : p.useCache with
      | true =>
        refine ⟨(key, t') :: st.cache, st.parses + 1, ?_⟩
        simp [hu]
      | false =>
        refine ⟨st.cache, st.parses + 1, ?_⟩
        simp [hu]

theorem renderCore_shape (E : Engine) (f : Nat) (st : Store) (q : Partial)
    (d : Data) :
    ∃ fn c pc xc, (renderCore E f st q d).1 =
      { st with funcs := fn, cache := c, parses := pc, execs := xc } := by
  obtain ⟨fn, hfn⟩ := getFuncsV_shape f st q
  obtain ⟨c, pc, hcp⟩ :=
    getOrParseTemplate_shape E (getFuncsV f st q).1 q
      (generateCacheKey q.templates (getFuncsV f st q).2)
  simp only [renderCore]
  cases hg : getOrParseTemplate E (getFuncsV f st q).1 q
      (generateCacheKey q.templates (getFuncsV f st q).2) with
  | mk st3 res =>
    rw [hg] at hcp
    simp only at hcp
    cases res with
    | error e =>
      refine ⟨fn, c, pc, ({ st with funcs := fn } : Store).execs, ?_⟩
      rw [hcp, hfn]
    | ok t =>
      cases he : (E.exec t q d).2 with
      | some e =>
        refine ⟨fn, c, pc, st.execs + 1, ?_⟩
        simp only [he]
        rw [hcp, hfn]
      | none =>
        refine ⟨fn, c, pc, st.execs + 1, ?_⟩
        simp only [he]
        rw [hcp, hfn]

theorem renderSelfV_shape (E : Engine) (H : Hooks) (f : Nat) (st : Store)
    (p : Partial) (r : Option Request) :
    ∃ m fn c pc xc, (renderSelfV E H f st p r).1 =
      { st with maps := m, funcs := fn, cache := c, parses := pc,
                execs := xc } := by
  obtain ⟨m, hm⟩ := buildData_shape f st p r
  by_cases ht : p.templates = []
  · exact ⟨st.maps, st.funcs, st.cache, st.parses, st.execs,
      by simp [renderSelfV, ht]⟩
  cases ha : p.action with
  | none =>
    obtain ⟨fn, c, pc, xc, hr⟩ :=
      renderCore_shape E f (buildData f st p r).1 p (buildData f st p r).2
    refine ⟨m, fn, c, pc, xc, ?_⟩
    simp only [renderSelfV, if_neg ht, ha]
    rw [hr, hm]
  | some hid =>
    cases hh : H hid p (buildData f st p r).2 with
    | error e =>
      refine ⟨m, st.funcs, st.cache, st.parses, st.execs, ?_⟩
      simp only [renderSelfV, if_neg ht, ha, hh]
      rw [hm]
    | ok q =>
      obtain ⟨fn, c, pc, xc, hr⟩ :=
        renderCore_shape E f (buildData f st p r).1 q (buildData f st p r).2
      refine ⟨m, fn, c, pc, xc, ?_⟩
      simp only [renderSelfV, if_neg ht, ha, hh]
      rw [hr, hm]

/-- C4: the claim states that resolving the global and layout data scopes
leaves every ancestor's global-data and layout-data maps unchanged.  The
code violates it: `getGlobalData`/`getLayoutData` write the node's own
entries into the very map object returned by the parent's recursive call,
so resolving a child's scope overwrites the root's shared maps in place.
This theorem evaluates the model at the failing input: a root with global
`Title = "root"`, layout `Section = "top"` and a child shadowing both;
after resolving the child's scopes the root's maps hold the child's
values. -/
theorem C4_scope_resolution_mutates_ancestor_maps :
    (c4Store.mapAt c4Root.globalData = [("Title", "root")] ∧
      c4Store.mapAt c4Root.layoutData = [("Section", "top")]) ∧
    c4Child.parent = some c4RootA ∧
    ((getGlobalDataV 2 c4Store c4Child).1).mapAt c4Root.globalData =
      [("Title", "child")] ∧
    ((getLayoutDataV 2 c4Store c4Child).1).mapAt c4Root.layoutData =
      [("Section", "inner")] := by decide

/-- C5 (amended): a failing action hook aborts the render — no template
is parsed or executed and the returned markup is empty — and the returned
error wraps the hook's error with the fixed context prefix
"error in action function: " (without the node's id, which the source
does not include). -/
theorem C5_action_error_aborts (E : Engine) (H : Hooks) (f : Nat)
    (st : Store) (p : Partial) (r : Option Request) (hid : Nat) (e : String)
    (ht : p.templates ≠ [])
    (ha : p.action = some hid)
    (hh : H hid p (buildData f st p r).2 = Except.error e) :
    renderSelfV E H f st p r =
      ((buildData f st p r).1, "",
        some ("error in action function: " ++ e)) ∧
    ((buildData f st p r).1).parses = st.parses ∧
    ((buildData f st p r).1).execs = st.execs := by
  obtain ⟨m, hm⟩ := buildData_shape f st p r
  refine ⟨?_, by rw [hm], by rw [hm]⟩
  simp only [renderSelfV, if_neg ht, ha, hh]

/-- C5 witness: the failing hook 0 on a concrete node aborts with the
wrapped error and no parse or execution. -/
theorem C5_witness :
    renderSelfV egEngine egHooks 1 Store.empty c5NodeA none =
      ((buildData 1 Store.empty c5NodeA none).1, "",
        some ("error in action function: " ++ "boom")) ∧
    ((buildData 1 Store.empty c5NodeA none).1).parses =
      Store.empty.parses ∧
    ((buildData 1 Store.empty c5NodeA none).1).execs = Store.empty.execs :=
  C5_action_error_aborts egEngine egHooks 1 Store.empty c5NodeA none 0 "boom"
    (by decide) rfl rfl

/-- C5 counterexample: the claim says the returned error wraps the hook's
error together with the node's id; but two nodes that differ only in
their id produce the identical error message
"error in action function: boom" — the node id is not part of the
returned error. -/
theorem C5_counterexample_error_lacks_node_id :
    c5NodeA.id ≠ c5NodeB.id ∧
    (renderSelfV egEngine egHooks 1 Store.empty c5NodeA none).2 =
      ("", some "error in action function: boom") ∧
    (renderSelfV egEngine egHooks 1 Store.empty c5NodeB none).2 =
      ("", some "error in action function: boom") := by decide

/-- C9 (amended): failures in the repository's own render control flow
are returned as error values (for example an empty template list), but
the `requestedSelect` template function, on a node whose selection map is
unset and whose requested-select value is empty, dereferences the nil
selection — a panic inside the template function (modelled as `none`),
which only the template engine's recovery turns into a returned
execution error. -/
theorem C9_requested_select_nil_dereference :
    (∀ (f : Nat) (st : Store) (p : Partial),
        p.selection = none → getRequestedSelectV f st p = "" →
        requestedSelectFunc f st p = none) ∧
    (∀ (E : Engine) (H : Hooks) (f : Nat) (st : Store) (p : Partial)
        (r : Option Request), p.templates = [] →
        renderSelfV E H f st p r =
          (st, "", some "no templates provided for rendering")) := by
  constructor
  · intro f st p hs hr
    simp [requestedSelectFunc, hr, hs]
  · intro E H f st p r ht
    simp [renderSelfV, ht]

/-- C9 witness: the concrete selection-less node reaches the nil
dereference, and a template-less node yields a returned error. -/
theorem C9_witness :
    requestedSelectFunc 1 Store.empty c9Node = none ∧
    renderSelfV egEngine egHooks 1 Store.empty dummyNode none =
      (Store.empty, "", some "no templates provided for rendering") :=
  ⟨C9_requested_select_nil_dereference.1 1 Store.empty c9Node rfl rfl,
   C9_requested_select_nil_dereference.2 egEngine egHooks 1 Store.empty
     dummyNode none rfl⟩

/-- C9 counterexample: the claim asserts no nil dereference is reachable;
but the `requestedSelect` closure built by `getFuncs`, evaluated on a
node with `selection` unset and an empty requested-select value, reaches
the dereference of the nil selection (`none` in the model) rather than
returning a string. -/
theorem C9_counterexample_nil_dereference_reachable :
    c9Node.selection = none ∧
    getRequestedSelectV 1 Store.empty c9Node = "" ∧
    requestedSelectFunc 1 Store.empty c9Node = none := by decide

theorem renderSelfV_hooks_indep (E : Engine) (H H' : Hooks) (f : Nat)
    (st : Store) (p : Partial) (r : Option Request) (ha : p.action = none) :
    renderSelfV E H f st p r = renderSelfV E H' f st p r := by
  simp only [renderSelfV, ha]

/-- C10: `clone()` leaves the `action` and `templateAction` hooks unset
on the copy; consequently the child-insertion path
(`renderChildPartial`), which renders the clone, never consults the hook
table at all — its result is the same for every hook table — whereas a
direct render of a node with an installed hook runs it (a failing hook
aborts the render with its error). -/
theorem C10_clone_drops_action_hooks :
    (∀ (st : Store) (p : Partial),
        ((clone st p).2).action = none ∧
        ((clone st p).2).templateAction = none) ∧
    (∀ (E : Engine) (H H' : Hooks) (f : Nat) (st : Store) (a : Nat)
        (id : String) (dm : Option AssocMap),
        renderChildPartial E H f st a id dm =
          renderChildPartial E H' f st a id dm) ∧
    (∀ (E : Engine) (H : Hooks) (f : Nat) (st : Store) (p : Partial)
        (r : Option Request) (hid : Nat) (e : String),
        p.templates ≠ [] → p.action = some hid →
        H hid p (buildData f st p r).2 = Except.error e →
        (renderSelfV E H f st p r).2 =
          ("", some ("error in action function: " ++ e))) := by
  refine ⟨fun st p => ⟨rfl, rfl⟩, ?_, ?_⟩
  · intro E H H' f st a id dm
    cases hn : st.node a with
    | none => simp [renderChildPartial, hn]
    | some p =>
      cases hc : mget p.children id with
      | none => simp [renderChildPartial, hn, hc]
      | some ca =>
        cases hcn : st.node ca with
        | none => simp [renderChildPartial, hn, hc, hcn]
        | some child =>
          simp only [renderChildPartial, hn, hc, hcn]
          apply renderSelfV_hooks_indep
          rfl
  · intro E H f st p r hid e ht ha hh
    simp only [renderSelfV, if_neg ht, ha, hh]

/-- C10 witness: the clone of a hook-bearing node has no hooks; the
child-insertion render of the example footer is identical under the
default hook table and under an always-failing one; the direct render of
the hook-bearing node runs (and fails with) its hook. -/
theorem C10_witness :
    ((clone Store.empty c5NodeA).2).action = none ∧
    renderChildPartial egEngine egHooks 2 egStore egRootA "footer" none =
      renderChildPartial egEngine (fun _ p _ => Except.error "other") 2
        egStore egRootA "footer" none ∧
    (renderSelfV egEngine egHooks 1 Store.empty c5NodeA none).2 =
      ("", some ("error in action function: " ++ "boom")) :=
  ⟨(C10_clone_drops_action_hooks.1 Store.empty c5NodeA).1,
   C10_clone_drops_action_hooks.2.1 egEngine egHooks
     (fun _ p _ => Except.error "other") 2 egStore egRootA "footer" none,
   C10_clone_drops_action_hooks.2.2 egEngine egHooks 1 Store.empty c5NodeA
     none 0 "boom" (by decide) rfl rfl⟩

theorem rclF_not_found (st : Store) (t : String)
    (hn : ∀ kv ∈ st.nodes, ∀ c ∈ kv.2.children, c.1 ≠ t) :
    ∀ (f : Nat) (wl : List Nat) (vis : Finset String) (r : Option Nat)
      (vis' : Finset String),
      rclF st t f wl vis = some (r, vis') → r = none := by
  intro f
  induction f with
  | zero => intro wl vis r vis' h; simp [rclF] at h
  | succ f ih =>
    intro wl vis r vis' h
    cases wl with
    | nil =>
      simp only [rclF] at h
      injection h with h1
      injection h1 with hr hv
      exact hr.symm
    | cons a rest =>
      simp only [rclF] at h
      split at h
      next hna => exact ih rest vis r vis' h
      next p hna =>
        split at h
        next hv => exact ih rest vis r vis' h
        next hv =>
          split at h
          next ca hca =>
            exfalso
            have hchild : mget p.children t = none :=
              mget_eq_none _ _ fun kv hkv => hn (a, p) (hget_mem hna) kv hkv
            rw [hchild] at hca
            exact Option.noConfusion hca
          next hca => exact ih _ _ r vis' h

theorem recursiveChildLookup_not_found (st : Store) (a : Nat) (t : String)
    (hn : ∀ kv ∈ st.nodes, ∀ c ∈ kv.2.children, c.1 ≠ t) :
    recursiveChildLookup st a t = none := by
  unfold recursiveChildLookup
  cases h : rclF st t (rclBound st) [a] ∅ with
  | none => rfl
  | some pr =>
    obtain ⟨r, vis⟩ := pr
    have hr := rclF_not_found st t hn (rclBound st) [a] ∅ r vis h
    simp [hr]

/-- C1: a requested target id that is not empty, differs from the
rendered node's id and is not a child key of any node in the store makes
`RenderWithRequest` fail with the TargetNotFound error
("requested partial … not found in parent …"), and the returned markup
is empty — no partial output is committed to the caller. -/
theorem C1_target_not_found (E : Engine) (H : Hooks) (rf f : Nat)
    (st : Store) (a : Nat) (req : Request) (p4 : Partial)
    (h4 : (applyRequest (f + 1) st a req).node a = some p4)
    (ht : p4.requestedPartial ≠ "")
    (hid : p4.requestedPartial ≠ p4.id)
    (hn : ∀ kv ∈ (applyRequest (f + 1) st a req).nodes,
        ∀ c ∈ kv.2.children, c.1 ≠ p4.requestedPartial) :
    RenderWithRequest E H (rf + 1) (f + 1) st a req =
      (applyRequest (f + 1) st a req, "",
        some ("requested partial " ++ p4.requestedPartial ++
          " not found in parent " ++ p4.id)) := by
  obtain ⟨p0, hp0⟩ : ∃ p, st.node a = some p := by
    cases hx : st.node a with
    | some p => exact ⟨p, rfl⟩
    | none =>
      exfalso
      simp only [applyRequest, hx] at h4
      exact Option.noConfusion h4
  simp only [RenderWithRequest, hp0]
  simp only [renderWithTarget, h4]
  have hT : getRequestedPartialV (f + 1) (applyRequest (f + 1) st a req) p4 =
      p4.requestedPartial := by
    simp [getRequestedPartialV, ht]
  rw [hT, if_neg (not_or.mpr ⟨ht, hid⟩),
    recursiveChildLookup_not_found _ a _ hn]

/-- C1 witness: targeting "zzz" (absent from the example tree) through
`RenderWithRequest` yields the TargetNotFound error and empty markup. -/
theorem C1_witness :
    RenderWithRequest egEngine egHooks 3 2 egStore egRootA egReqMissing =
      (applyRequest 2 egStore egRootA egReqMissing, "",
        some ("requested partial " ++ c1Node.requestedPartial ++
          " not found in parent " ++ c1Node.id)) :=
  C1_target_not_found egEngine egHooks 2 1 egStore egRootA egReqMissing
    c1Node (by decide) (by decide) (by decide) (by decide)

theorem rclF_mono (st : Store) (t : String) :
    ∀ (f : Nat) (wl : List Nat) (vis : Finset String)
      (r : Option Nat × Finset String),
      rclF st t f wl vis = some r → rclF st t (f + 1) wl vis = some r := by
  intro f
  induction f with
  | zero => intro wl vis r h; simp [rclF] at h
  | succ f ih =>
    intro wl vis r h
    cases wl with
    | nil => exact h
    | cons a rest =>
      simp only [rclF] at h ⊢
      cases hna : st.node a with
      | none =>
        simp only [hna] at h ⊢
        exact ih rest vis r h
      | some p =>
        simp only [hna] at h ⊢
        by_cases hv : p.id ∈ vis
        · simp only [if_pos hv] at h ⊢
          exact ih rest vis r h
        · simp only [if_neg hv] at h ⊢
          cases hm : mget p.children t with
          | some ca => simp only [hm] at h ⊢; exact h
          | none =>
            simp only [hm] at h ⊢
            exact ih _ _ r h

theorem rclF_mono_le (st : Store) (t : String) (f f' : Nat) (hle : f ≤ f')
    (wl : List Nat) (vis : Finset String) (r : Option Nat × Finset String)
    (h : rclF st t f wl vis = some r) : rclF st t f' wl vis = some r := by
  induction f', hle using Nat.le_induction with
  | base => exact h
  | succ f' hle ih => exact rclF_mono st t f' wl vis r ih

theorem nodeId_mem_idsOf {st : Store} {a : Nat} {p : Partial}
    (h : st.node a = some p) : p.id ∈ idsOf st := by
  unfold idsOf
  rw [List.mem_toFinset]
  exact List.mem_map.mpr ⟨(a, p), hget_mem h, rfl⟩

theorem rclF_exists (st : Store) (t : String) :
    ∀ (k : Nat) (vis : Finset String), (idsOf st \ vis).card ≤ k →
      ∀ (wl : List Nat), ∃ f r, rclF st t f wl vis = some r := by
  intro k
  induction k with
  | zero =>
    intro vis hcard wl
    induction wl with
    | nil => exact ⟨1, (none, vis), rfl⟩
    | cons a rest ihw =>
      obtain ⟨f, r, hf⟩ := ihw
      cases hna : st.node a with
      | none => exact ⟨f + 1, r, by simp [rclF, hna, hf]⟩
      | some p =>
        have hv : p.id ∈ vis := by
          by_contra hnv
          have hmem : p.id ∈ idsOf st \ vis :=
            Finset.mem_sdiff.mpr ⟨nodeId_mem_idsOf hna, hnv⟩
          have hpos : 0 < (idsOf st \ vis).card :=
            Finset.card_pos.mpr ⟨_, hmem⟩
          omega
        exact ⟨f + 1, r, by simp [rclF, hna, hv, hf]⟩
  | succ k ihk =>
    intro vis hcard wl
    induction wl with
    | nil => exact ⟨1, (none, vis), rfl⟩
    | cons a rest ihw =>
      obtain ⟨f, r, hf⟩ := ihw
      cases hna : st.node a with
      | none => exact ⟨f + 1, r, by simp [rclF, hna, hf]⟩
      | some p =>
        by_cases hv : p.id ∈ vis
        · exact ⟨f + 1, r, by simp [rclF, hna, hv, hf]⟩
        · cases hm : mget p.children t with
          | some ca =>
            exact ⟨1, (some ca, insert p.id vis),
              by simp [rclF, hna, hv, hm]⟩
          | none =>
            have hcard' : (idsOf st \ insert p.id vis).card ≤ k := by
              rw [Finset.sdiff_insert]
              have hlt := Finset.card_erase_lt_of_mem
                (Finset.mem_sdiff.mpr ⟨nodeId_mem_idsOf hna, hv⟩)
              omega
            obtain ⟨f2, r2, hf2⟩ :=
              ihk (insert p.id vis) hcard' (p.children.map Prod.snd ++ rest)
            exact ⟨f2 + 1, r2, by simp [rclF, hna, hv, hm, hf2]⟩

theorem foldl_children_ge (l : List (Nat × Partial)) :
    ∀ i : Nat, i + l.length ≤
      l.foldl (fun acc kv => acc + kv.2.children.length + 1) i := by
  induction l with
  | nil => intro i; simp
  | cons kv rest ih =>
    intro i
    have := ih (i + kv.2.children.length + 1)
    simp only [List.foldl_cons, List.length_cons]
    omega

theorem renderSelfV_nodes (E : Engine) (H : Hooks) (f : Nat) (st : Store)
    (p : Partial) (r : Option Request) :
    (renderSelfV E H f st p r).1.nodes = st.nodes := by
  obtain ⟨m, fn, c, pc, xc, h⟩ := renderSelfV_shape E H f st p r
  rw [h]

theorem str_empty_append (s : String) : "" ++ s = s := by
  obtain ⟨l⟩ := s
  rfl

theorem getRequestedPartialV_own (f : Nat) (st : Store) (p : Partial)
    (h : p.requestedPartial ≠ "") :
    getRequestedPartialV (f + 1) st p = p.requestedPartial := by
  simp [getRequestedPartialV, h]

theorem getRequestedPartialV_up (f : Nat) (st : Store) (p : Partial)
    (pa : Nat) (q : Partial) (h : p.requestedPartial = "")
    (hp : p.parent = some pa) (hq : st.node pa = some q) :
    getRequestedPartialV (f + 1) st p = getRequestedPartialV f st q := by
  simp [getRequestedPartialV, h, hp, hq]

theorem renderCore_run_nocache (E : Engine) (f : Nat) (st : Store)
    (q : Partial) (d : Data) (t : Nat) (hu : q.useCache = false)
    (hpt : E.parse q.templates = Except.ok t)
    (hex : ∀ (t' : Nat) (n : Partial) (d' : Data), (E.exec t' n d').2 = none) :
    ∃ st', renderCore E f st q d = (st', (E.exec t q d).1, none) := by
  refine ⟨{ (getFuncsV f st q).1 with
      parses := ((getFuncsV f st q).1).parses + 1,
      execs := ((getFuncsV f st q).1).execs + 1 }, ?_⟩
  simp only [renderCore, getOrParseTemplate, hu, hpt]
  cases hmm : mget ((getFuncsV f st q).1).cache
      (generateCacheKey q.templates (getFuncsV f st q).2) <;>
    simp [hex]

theorem renderSelfV_run_any (E : Engine) (H : Hooks) (f : Nat) (st : Store)
    (q : Partial) (r : Option Request) (t : Nat)
    (hte : q.templates ≠ []) (ha : q.action = none) (hu : q.useCache = false)
    (hpt : E.parse q.templates = Except.ok t)
    (hex : ∀ (t' : Nat) (n : Partial) (d' : Data), (E.exec t' n d').2 = none) :
    ∃ st' d, renderSelfV E H f st q r = (st', (E.exec t q d).1, none) := by
  obtain ⟨st', h⟩ := renderCore_run_nocache E f (buildData f st q r).1 q
    (buildData f st q r).2 t hu hpt hex
  refine ⟨st', (buildData f st q r).2, ?_⟩
  simp only [renderSelfV, if_neg hte, ha]
  exact h

theorem c2_child_insert (E : Engine) (H : Hooks) (f : Nat) (st : Store)
    (rootA fa : Nat) (root footer : Partial) (fid : String) (tf : Nat)
    (hroot : st.node rootA = some root)
    (hch : mget root.children fid = some fa)
    (hfooter : st.node fa = some footer)
    (hf2 : footer.swapOOB = false)
    (hf4 : footer.templates ≠ []) (hf5 : footer.useCache = false)
    (hpf : E.parse footer.templates = Except.ok tf)
    (hex : ∀ (t' : Nat) (n : Partial) (d' : Data),
      (E.exec t' n d').2 = none) :
    ∃ st' n d, renderChildPartial E H f st rootA fid none =
        (st', (E.exec tf n d).1, none) ∧
      n.swapOOB = false ∧ n.id = footer.id := by
  obtain ⟨st', d, h⟩ := renderSelfV_run_any E H f (clone st footer).1
    { (clone st footer).2 with parent := some rootA }
    (some (getRequestV f (clone st footer).1 root)) tf hf4 rfl hf5 hpf hex
  refine ⟨st', { (clone st footer).2 with parent := some rootA }, d,
    ?_, hf2, rfl⟩
  simp only [renderChildPartial, hroot, hch, hfooter]
  exact h

theorem c2_full_render (E : Engine) (H : Hooks) (rf f : Nat) (st : Store)
    (rootA : Nat) (root : Partial) (tr : Nat) (r : Option Request)
    (hroot : st.node rootA = some root) (hrp : root.parent = none)
    (hrt : root.templates ≠ []) (hra : root.action = none)
    (hru : root.useCache = false)
    (hpr : E.parse root.templates = Except.ok tr)
    (hex : ∀ (t' : Nat) (n : Partial) (d' : Data),
      (E.exec t' n d').2 = none) :
    ∃ stR dR,
      renderWithTarget E H (rf + 1) (f + 1)
        (st.setNode rootA { root with requestedPartial := "" }) rootA r =
        (stR, (E.exec tr { root with requestedPartial := "" } dR).1,
          none) := by
  have h0 : (st.setNode rootA { root with requestedPartial := "" }).node
      rootA = some { root with requestedPartial := "" } := by
    unfold Store.node Store.setNode
    exact hget_hset_self _ _ _ root hroot
  have hp0 : ({ root with requestedPartial := "" } : Partial).parent =
      none := hrp
  have ht : getRequestedPartialV (f + 1)
      (st.setNode rootA { root with requestedPartial := "" })
      { root with requestedPartial := "" } = "" := by
    simp [getRequestedPartialV, hrp]
  obtain ⟨stR, dR, hR⟩ := renderSelfV_run_any E H (f + 1)
    (st.setNode rootA { root with requestedPartial := "" })
    { root with requestedPartial := "" } r tr hrt hra hru hpr hex
  refine ⟨stR, dR, ?_⟩
  simp only [hrp] at h0 ht hR
  simp [renderWithTarget, h0, ht, renderSelf, hR, hrp]

theorem recursiveChildLookup_direct (st : Store) (a : Nat) (t : String)
    (p : Partial) (ca : Nat) (hna : st.node a = some p)
    (hm : mget p.children t = some ca) :
    recursiveChildLookup st a t = some ca := by
  have h1 : rclF st t 1 [a] ∅ = some (some ca, insert p.id ∅) := by
    simp [rclF, hna, hm]
  have hb : 1 ≤ rclBound st := by
    unfold rclBound
    omega
  unfold recursiveChildLookup
  rw [rclF_mono_le st t 1 (rclBound st) hb [a] ∅ _ h1]

theorem c2_target_render (E : Engine) (H : Hooks) (rf f : Nat) (st : Store)
    (rootA ca fa : Nat) (root content footer : Partial)
    (cid fid : String) (tc tf : Nat) (r : Option Request)
    (hroot : st.node rootA = some root)
    (hrc : root.children = [(cid, ca), (fid, fa)])
    (hro : root.oobChildren = [fid])
    (hreq : root.requestedPartial = cid)
    (hcontent : st.node ca = some content)
    (hc1 : content.parent = some rootA) (hc2 : content.id = cid)
    (hc3 : content.requestedPartial = "")
    (hc4 : content.action = none) (hc5 : content.templates ≠ [])
    (hc6 : content.useCache = false)
    (hfooter : st.node fa = some footer)
    (hf3 : footer.action = none) (hf4 : footer.templates ≠ [])
    (hf5 : footer.useCache = false)
    (hcid : cid ≠ "") (hcidr : cid ≠ root.id) (hfc : cid ≠ fid)
    (hpc : E.parse content.templates = Except.ok tc)
    (hpf : E.parse footer.templates = Except.ok tf)
    (hex : ∀ (t' : Nat) (n : Partial) (d' : Data),
      (E.exec t' n d').2 = none) :
    ∃ stT d1 d2,
      renderWithTarget E H (rf + 1 + 1) (f + 1 + 1) st rootA r =
        (stT, (E.exec tc content d1).1 ++
          (E.exec tf { footer with swapOOB := true } d2).1, none) := by
  have hlook : recursiveChildLookup st rootA cid = some ca :=
    recursiveChildLookup_direct st rootA cid root ca hroot
      (by rw [hrc]; simp [mget])
  have hner : root.requestedPartial ≠ "" := by rw [hreq]; exact hcid
  have ht0 : getRequestedPartialV (f + 1 + 1) st root = cid := by
    have h := getRequestedPartialV_own (f + 1) st root hner
    rw [h, hreq]
  have ht1 : getRequestedPartialV (f + 1 + 1) st content = cid := by
    have h := getRequestedPartialV_up (f + 1) st content rootA root hc3 hc1
      hroot
    rw [h]
    have h2 := getRequestedPartialV_own f st root hner
    rw [h2, hreq]
  obtain ⟨stC, dC, hC⟩ := renderSelfV_run_any E H (f + 1 + 1) st content r
    tc hc5 hc4 hc6 hpc hex
  have hCn : stC.nodes = st.nodes := by
    have h := renderSelfV_nodes E H (f + 1 + 1) st content r
    rw [hC] at h
    exact h
  obtain ⟨stF, dF, hF⟩ := renderSelfV_run_any E H (f + 1 + 1)
    { stC with nodes := hset stC.nodes fa { footer with swapOOB := true } }
    { footer with swapOOB := true } r tf hf4 hf3 hf5 hpf hex
  have hCroot : stC.node rootA = some root := by
    unfold Store.node
    rw [hCn]
    exact hroot
  have hCfooter : stC.node fa = some footer := by
    unfold Store.node
    rw [hCn]
    exact hfooter
  have hstF : ({ stC with
      nodes := hset stC.nodes fa { footer with swapOOB := true } } :
        Store).node fa = some { footer with swapOOB := true } := by
    unfold Store.node
    exact hget_hset_self _ _ _ footer (by rw [hCn]; exact hfooter)
  refine ⟨stF, dC, dF, ?_⟩
  simp [renderWithTarget, hroot, ht0, hcid, hcidr, hlook, hcontent, ht1,
    hc2, renderSelf, hC, hc1, renderOOBChildren, hCroot, hro, hrc, oobLoop,
    mget, Ne.symm hfc, hfc, hCfooter, Store.setNode, hstF, hF,
    str_empty_append]

/-- C2: OOB swap semantics. (1) A full render (empty requested target) of
a root renders the root's own template pipeline, with no OOB appendix.
(2) A named child inserted through the template-visible child-insertion
path (`renderChildPartial`, the path a full render uses to embed the OOB
children) is rendered with the swap flag still false. (3) A target render
of a sibling node appends, after the target's own markup, the markup of
the OOB-marked child of the target's parent exactly once, rendered with
the swap flag set. -/
theorem C2_oob_swap_semantics :
    (∀ (E : Engine) (H : Hooks) (rf f : Nat) (st : Store) (rootA : Nat)
        (root : Partial) (tr : Nat) (r : Option Request),
      st.node rootA = some root → root.parent = none →
      root.templates ≠ [] → root.action = none → root.useCache = false →
      E.parse root.templates = Except.ok tr →
      (∀ (t' : Nat) (n : Partial) (d' : Data), (E.exec t' n d').2 = none) →
      ∃ stR dR,
        renderWithTarget E H (rf + 1) (f + 1)
          (st.setNode rootA { root with requestedPartial := "" }) rootA r =
          (stR, (E.exec tr { root with requestedPartial := "" } dR).1,
            none)) ∧
    (∀ (E : Engine) (H : Hooks) (f : Nat) (st : Store)
        (rootA fa : Nat) (root footer : Partial) (fid : String) (tf : Nat),
      st.node rootA = some root → mget root.children fid = some fa →
      st.node fa = some footer → footer.swapOOB = false →
      footer.templates ≠ [] → footer.useCache = false →
      E.parse footer.templates = Except.ok tf →
      (∀ (t' : Nat) (n : Partial) (d' : Data), (E.exec t' n d').2 = none) →
      ∃ st' n d, renderChildPartial E H f st rootA fid none =
          (st', (E.exec tf n d).1, none) ∧
        n.swapOOB = false ∧ n.id = footer.id) ∧
    (∀ (E : Engine) (H : Hooks) (rf f : Nat) (st : Store)
        (rootA ca fa : Nat) (root content footer : Partial)
        (cid fid : String) (tc tf : Nat) (r : Option Request),
      st.node rootA = some root →
      root.children = [(cid, ca), (fid, fa)] →
      root.oobChildren = [fid] → root.requestedPartial = cid →
      st.node ca = some content →
      content.parent = some rootA → content.id = cid →
      content.requestedPartial = "" → content.action = none →
      content.templates ≠ [] → content.useCache = false →
      st.node fa = some footer →
      footer.action = none → footer.templates ≠ [] →
      footer.useCache = false →
      cid ≠ "" → cid ≠ root.id → cid ≠ fid →
      E.parse content.templates = Except.ok tc →
      E.parse footer.templates = Except.ok tf →
      (∀ (t' : Nat) (n : Partial) (d' : Data), (E.exec t' n d').2 = none) →
      ∃ stT d1 d2,
        renderWithTarget E H (rf + 1 + 1) (f + 1 + 1) st rootA r =
          (stT, (E.exec tc content d1).1 ++
            (E.exec tf { footer with swapOOB := true } d2).1, none)) := by
  refine ⟨?_, ?_, ?_⟩
  · intro E H rf f st rootA root tr r h1 h2 h3 h4 h5 h6 h7
    exact c2_full_render E H rf f st rootA root tr r h1 h2 h3 h4 h5 h6 h7
  · intro E H f st rootA fa root footer fid tf h1 h2 h3 h4 h5 h6 h7 h8
    exact c2_child_insert E H f st rootA fa root footer fid tf
      h1 h2 h3 h4 h5 h6 h7 h8
  · intro E H rf f st rootA ca fa root content footer cid fid tc tf r
      h1 h2 h3 h4 h5 h6 h7 h8 h9 h10 h11 h12 h13 h14 h15 h16 h17 h18 h19
      h20 h21
    exact c2_target_render E H rf f st rootA ca fa root content footer cid
      fid tc tf r h1 h2 h3 h4 h5 h6 h7 h8 h9 h10 h11 h12 h13 h14 h15 h16
      h17 h18 h19 h20 h21

/-- C2 witness: the spec's example tree (root with a "content" child and
an OOB "footer" child) instantiates all three parts with the concrete
engine and hooks. -/
theorem C2_witness :
    (∃ stR dR,
      renderWithTarget egEngine egHooks 1 1
        (egStoreT.setNode egRootA { egRootT with requestedPartial := "" })
        egRootA none =
        (stR, (egEngine.exec 101 { egRootT with requestedPartial := "" }
          dR).1, none)) ∧
    (∃ st' n d,
      renderChildPartial egEngine egHooks 2 egStoreT egRootA "footer"
        none = (st', (egEngine.exec 101 n d).1, none) ∧
      n.swapOOB = false ∧ n.id = egFooter.id) ∧
    (∃ stT d1 d2,
      renderWithTarget egEngine egHooks 2 2 egStoreT egRootA
        (some egReqContent) =
        (stT, (egEngine.exec 101 egContent d1).1 ++
          (egEngine.exec 101 { egFooter with swapOOB := true } d2).1,
          none)) := by
  refine ⟨?_, ?_, ?_⟩
  · exact C2_oob_swap_semantics.1 egEngine egHooks 0 0 egStoreT egRootA
      egRootT 101 none rfl (by decide) (by decide) (by decide) (by decide)
      rfl (fun _ _ _ => rfl)
  · exact C2_oob_swap_semantics.2.1 egEngine egHooks 2 egStoreT egRootA
      egFooterA egRootT egFooter "footer" 101 rfl (by decide) rfl
      (by decide) (by decide) (by decide) rfl (fun _ _ _ => rfl)
  · exact C2_oob_swap_semantics.2.2 egEngine egHooks 0 0 egStoreT egRootA
      egContentA egFooterA egRootT egContent egFooter "content" "footer"
      101 101 (some egReqContent) rfl (by decide) (by decide) (by decide)
      rfl (by decide) (by decide) (by decide) (by decide) (by decide)
      (by decide) rfl (by decide) (by decide) (by decide) (by decide)
      (by decide) (by decide) rfl rfl (fun _ _ _ => rfl)

/-- C6 (amended): for every store — cyclic parent/child links included —
and every target id, the visited-set-guarded depth-first lookup reaches a
fuel-independent result (termination); a direct child keyed by the target
is returned first, before any deeper match; and a grandchild three levels
down is located by id alone for arbitrary intermediate ids as long as the
ids along the path are pairwise distinct and the intermediate children
keys differ from the target (the visited set is keyed by id, so duplicate
ids along the path can hide the deeper node — see the counterexample). -/
theorem C6_lookup_terminates_and_finds :
    (∀ (st : Store) (a : Nat) (t : String),
        ∃ f₀ r, ∀ f, f₀ ≤ f → rclF st t f [a] ∅ = some r) ∧
    (∀ (st : Store) (a : Nat) (t : String) (p : Partial) (ca : Nat),
        st.node a = some p → mget p.children t = some ca →
        recursiveChildLookup st a t = some ca) ∧
    (∀ (st : Store) (a0 a1 a2 a3 : Nat) (p0 p1 p2 p3 : Partial)
        (i3 : String),
        st.node a0 = some p0 → st.node a1 = some p1 →
        st.node a2 = some p2 → st.node a3 = some p3 →
        p0.children = [(p1.id, a1)] → p1.children = [(p2.id, a2)] →
        p2.children = [(i3, a3)] →
        p1.id ≠ p0.id → p2.id ≠ p0.id → p2.id ≠ p1.id →
        i3 ≠ p1.id → i3 ≠ p2.id →
        a0 ≠ a1 → a0 ≠ a2 → a1 ≠ a2 →
        recursiveChildLookup st a0 i3 = some a3) := by
  refine ⟨?_, ?_, ?_⟩
  · intro st a t
    obtain ⟨f, r, hf⟩ :=
      rclF_exists st t (idsOf st \ ∅).card ∅ le_rfl [a]
    exact ⟨f, r, fun f' hle => rclF_mono_le st t f f' hle [a] ∅ r hf⟩
  · exact recursiveChildLookup_direct
  · intro st a0 a1 a2 a3 p0 p1 p2 p3 i3 h0 h1 h2 h3 hc0 hc1 hc2
      hd10 hd20 hd21 hi1 hi2 ha01 ha02 ha12
    have hcomp : rclF st i3 3 [a0] ∅ =
        some (some a3, insert p2.id (insert p1.id (insert p0.id ∅))) := by
      simp [rclF, h0, h1, h2, hc0, hc1, hc2, mget, hd10, hd20, hd21,
        Ne.symm hi1, Ne.symm hi2]
    have h3len : 3 ≤ st.nodes.length := by
      have hm0 : a0 ∈ st.nodes.map Prod.fst :=
        List.mem_map.mpr ⟨(a0, p0), hget_mem h0, rfl⟩
      have hm1 : a1 ∈ st.nodes.map Prod.fst :=
        List.mem_map.mpr ⟨(a1, p1), hget_mem h1, rfl⟩
      have hm2 : a2 ∈ st.nodes.map Prod.fst :=
        List.mem_map.mpr ⟨(a2, p2), hget_mem h2, rfl⟩
      have hsub : ({a0, a1, a2} : Finset Nat) ⊆
          (st.nodes.map Prod.fst).toFinset := by
        intro x hx
        rw [List.mem_toFinset]
        rcases Finset.mem_insert.mp hx with rfl | hx'
        · exact hm0
        rcases Finset.mem_insert.mp hx' with rfl | hx''
        · exact hm1
        rw [Finset.mem_singleton] at hx''
        exact hx'' ▸ hm2
      have hc3 : ({a0, a1, a2} : Finset Nat).card = 3 := by
        rw [Finset.card_insert_of_not_mem (by simp [ha01, ha02]),
          Finset.card_insert_of_not_mem (by simp [ha12]),
          Finset.card_singleton]
      calc 3 = ({a0, a1, a2} : Finset Nat).card := hc3.symm
        _ ≤ (st.nodes.map Prod.fst).toFinset.card := Finset.card_le_card hsub
        _ ≤ (st.nodes.map Prod.fst).length := (st.nodes.map Prod.fst).toFinset_card_le
        _ = st.nodes.length := List.length_map _ _
    have hb : 3 ≤ rclBound st := by
      unfold rclBound
      have := foldl_children_ge st.nodes 1
      omega
    unfold recursiveChildLookup
    rw [rclF_mono_le st i3 3 (rclBound st) hb [a0] ∅ _ hcomp]

/-- C6 counterexample: the claim says a node is located by id at any
depth independent of the intermediate node ids; but with two
intermediate nodes sharing the id "x", the id-keyed visited set prunes
the second one and the grandchild with id "t", although reachable three
levels down, is not found. -/
theorem C6_counterexample_duplicate_intermediate_ids :
    recursiveChildLookup c6Store 4 "t" = none ∧
    (∃ p, c6Store.node 4 = some p ∧ p.id = "r" ∧ p.children = [("x", 9)]) ∧
    (∃ p, c6Store.node 9 = some p ∧ p.id = "x" ∧ p.children = [("x", 14)]) ∧
    (∃ p, c6Store.node 14 = some p ∧ p.id = "x" ∧
      p.children = [("t", 19)]) ∧
    (∃ p, c6Store.node 19 = some p ∧ p.id = "t") := by decide

theorem pcAt_lt {s : CState} {i : Nat} {v : TPC} (h : pcAt s i = some v) :
    i < s.pcs.length := by
  by_contra hge
  unfold pcAt at h
  rw [List.get?_eq_none.mpr (Nat.le_of_not_lt hge)] at h
  exact Option.noConfusion h

theorem pcAt_set_self {pcs : List TPC} {i : Nat} (h : i < pcs.length)
    (v : TPC) (uc cb : Bool) (lk : Option Nat) (pr : Nat) :
    pcAt ⟨uc, cb, lk, pcs.set i v, pr⟩ i = some v := by
  simp only [pcAt]
  exact List.get?_set_eq_of_lt v h

theorem pcAt_set_ne {pcs : List TPC} {i j : Nat} (h : i ≠ j)
    (v : TPC) (uc cb : Bool) (lk : Option Nat) (pr : Nat) :
    pcAt ⟨uc, cb, lk, pcs.set i v, pr⟩ j = pcs.get? j := by
  simp only [pcAt]
  exact List.get?_set_ne v pcs h

theorem CInv_init (n : Nat) : CInv (cInit true n) := by
  have hstart : ∀ (i : Nat) (v : TPC), pcAt (cInit true n) i = some v →
      v = TPC.start := by
    intro i v h
    unfold pcAt cInit at h
    have hm := List.get?_mem h
    exact (List.eq_of_mem_replicate hm)
  refine ⟨rfl, ?_, Or.inl ⟨rfl, rfl, ?_⟩⟩
  · intro i hi
    exfalso
    rcases hi with h | h
    · exact TPC.noConfusion (hstart i _ h)
    · exact TPC.noConfusion (hstart i _ h)
  · intro i h
    exact TPC.noConfusion (hstart i _ h)

theorem CInv_step {s s' : CState} (hinv : CInv s) (hstep : CStep s s') :
    CInv s' := by
  obtain ⟨huc, hlock, hacct⟩ := hinv
  cases hstep with
  | check1Hit i hpc huc2 hc =>
    have hlt := pcAt_lt hpc
    refine ⟨huc, ?_, ?_⟩
    · intro j hj
      by_cases hij : i = j
      · subst hij
        rw [pcAt_set_self hlt] at hj
        rcases hj with h | h <;> exact TPC.noConfusion (Option.some.inj h)
      · rw [pcAt_set_ne hij] at hj
        exact hlock j hj
    · rcases hacct with ⟨_, hcf, _⟩ | ⟨hp, hct, hns⟩ | ⟨_, hcf, _⟩
      · rw [hc] at hcf; exact Bool.noConfusion hcf
      · refine Or.inr (Or.inl ⟨hp, hct, ?_⟩)
        intro j
        by_cases hij : i = j
        · subst hij
          rw [pcAt_set_self hlt]
          intro h
          exact TPC.noConfusion (Option.some.inj h)
        · rw [pcAt_set_ne hij]
          exact hns j
      · rw [hc] at hcf; exact Bool.noConfusion hcf
  | check1Miss i hpc hcond =>
    have hlt := pcAt_lt hpc
    refine ⟨huc, ?_, ?_⟩
    · intro j hj
      by_cases hij : i = j
      · subst hij
        rw [pcAt_set_self hlt] at hj
        rcases hj with h | h <;> exact TPC.noConfusion (Option.some.inj h)
      · rw [pcAt_set_ne hij] at hj
        exact hlock j hj
    · rcases hacct with ⟨hp, hcf, hns⟩ | ⟨hp, hct, hns⟩ | ⟨hp, hcf, j, hj⟩
      · refine Or.inl ⟨hp, hcf, ?_⟩
        intro j
        by_cases hij : i = j
        · subst hij
          rw [pcAt_set_self hlt]
          intro h
          exact TPC.noConfusion (Option.some.inj h)
        · rw [pcAt_set_ne hij]
          exact hns j
      · refine Or.inr (Or.inl ⟨hp, hct, ?_⟩)
        intro j
        by_cases hij : i = j
        · subst hij
          rw [pcAt_set_self hlt]
          intro h
          exact TPC.noConfusion (Option.some.inj h)
        · rw [pcAt_set_ne hij]
          exact hns j
      · refine Or.inr (Or.inr ⟨hp, hcf, j, ?_⟩)
        have hij : i ≠ j := by
          intro hij
          subst hij
          rw [hpc] at hj
          exact TPC.noConfusion (Option.some.inj hj)
        rw [pcAt_set_ne hij]
        exact hj
  | acquire i hpc hl =>
    have hlt := pcAt_lt hpc
    refine ⟨huc, ?_, ?_⟩
    · intro j hj
      by_cases hij : i = j
      · subst hij; rfl
      · rw [pcAt_set_ne hij] at hj
        have := hlock j hj
        rw [hl] at this
        exact Option.noConfusion this
    · rcases hacct with ⟨hp, hcf, hns⟩ | ⟨hp, hct, hns⟩ | ⟨hp, hcf, j, hj⟩
      · refine Or.inl ⟨hp, hcf, ?_⟩
        intro j
        by_cases hij : i = j
        · subst hij
          rw [pcAt_set_self hlt]
          intro h
          exact TPC.noConfusion (Option.some.inj h)
        · rw [pcAt_set_ne hij]
          exact hns j
      · refine Or.inr (Or.inl ⟨hp, hct, ?_⟩)
        intro j
        by_cases hij : i = j
        · subst hij
          rw [pcAt_set_self hlt]
          intro h
          exact TPC.noConfusion (Option.some.inj h)
        · rw [pcAt_set_ne hij]
          exact hns j
      · exfalso
        have := hlock j (Or.inr hj)
        rw [hl] at this
        exact Option.noConfusion this
  | check2Hit i hpc hli huc2 hc =>
    have hlt := pcAt_lt hpc
    refine ⟨huc, ?_, ?_⟩
    · intro j hj
      by_cases hij : i = j
      · subst hij
        rw [pcAt_set_self hlt] at hj
        rcases hj with h | h <;> exact TPC.noConfusion (Option.some.inj h)
      · rw [pcAt_set_ne hij] at hj
        have := hlock j hj
        rw [hli] at this
        exact absurd (Option.some.inj this) (fun he => hij he)
    · rcases hacct with ⟨_, hcf, _⟩ | ⟨hp, hct, hns⟩ | ⟨_, hcf, _⟩
      · rw [hc] at hcf; exact Bool.noConfusion hcf
      · refine Or.inr (Or.inl ⟨hp, hct, ?_⟩)
        intro j
        by_cases hij : i = j
        · subst hij
          rw [pcAt_set_self hlt]
          intro h
          exact TPC.noConfusion (Option.some.inj h)
        · rw [pcAt_set_ne hij]
          exact hns j
      · rw [hc] at hcf; exact Bool.noConfusion hcf
  | parse i hpc hli hcond =>
    have hlt := pcAt_lt hpc
    have hcf : s.cached = false := by
      rcases hcond with h | h
      · rw [huc] at h; exact Bool.noConfusion h
      · exact h
    refine ⟨huc, ?_, ?_⟩
    · intro j hj
      by_cases hij : i = j
      · subst hij; exact hli
      · rw [pcAt_set_ne hij] at hj
        exact hlock j hj
    · rcases hacct with ⟨hp, _, hns⟩ | ⟨hp, hct, hns⟩ | ⟨hp, _, j, hj⟩
      · refine Or.inr (Or.inr ⟨by show s.parses + 1 = 1; omega, hcf, i, ?_⟩)
        exact pcAt_set_self hlt _ _ _ _ _
      · rw [hct] at hcf; exact Bool.noConfusion hcf
      · exfalso
        have hlj := hlock j (Or.inr hj)
        rw [hli] at hlj
        have hij := Option.some.inj hlj
        subst hij
        rw [hpc] at hj
        exact TPC.noConfusion (Option.some.inj hj)
  | storeRelease i hpc hli =>
    have hlt := pcAt_lt hpc
    refine ⟨huc, ?_, ?_⟩
    · intro j hj
      by_cases hij : i = j
      · subst hij
        rw [pcAt_set_self hlt] at hj
        rcases hj with h | h <;> exact TPC.noConfusion (Option.some.inj h)
      · rw [pcAt_set_ne hij] at hj
        have := hlock j hj
        rw [hli] at this
        exact absurd (Option.some.inj this) (fun he => hij he)
    · rcases hacct with ⟨_, _, hns⟩ | ⟨_, _, hns⟩ | ⟨hp, hcf, j, hj⟩
      · exact absurd hpc (hns i)
      · exact absurd hpc (hns i)
      · refine Or.inr (Or.inl ⟨hp, by rw [hcf, huc]; rfl, ?_⟩)
        intro j'
        by_cases hij : i = j'
        · subst hij
          rw [pcAt_set_self hlt]
          intro h
          exact TPC.noConfusion (Option.some.inj h)
        · rw [pcAt_set_ne hij]
          intro h
          have := hlock j' (Or.inr h)
          rw [hli] at this
          exact hij (Option.some.inj this)

theorem CInv_reach {s0 s : CState} (h : CReach s0 s) (h0 : CInv s0) :
    CInv s := by
  induction h with
  | refl => exact h0
  | tail hab hbc ih => exact CInv_step ih hbc

/-- C7: in the double-checked-locking model of `getOrParseTemplate` —
first unlocked cache check, per-key mutex acquisition, second check under
the lock — every state reachable by any interleaving of N goroutines
that start with a cold cache (caching enabled) has performed at most one
template compilation for the key. -/
theorem C7_at_most_one_parse (n : Nat) (s : CState)
    (h : CReach (cInit true n) s) : s.parses ≤ 1 := by
  have hinv := CInv_reach h (CInv_init n)
  rcases hinv.2.2 with ⟨hp, _⟩ | ⟨hp, _⟩ | ⟨hp, _⟩ <;> omega

/-- C7 witness: a complete interleaving of two goroutines — both miss the
first check, the first acquires the lock, parses and stores, the second
then hits the second check — reaches a final state with exactly one
parse, within the bound. -/
theorem C7_witness :
    ({ useCache := true, cached := true, lock := none,
       pcs := [TPC.done, TPC.done], parses := 1 } : CState).parses ≤ 1 := by
  apply C7_at_most_one_parse 2
  have step1 : CStep (cInit true 2)
      ⟨true, false, none, [TPC.waiting, TPC.start], 0⟩ :=
    CStep.check1Miss (cInit true 2) 0 (by decide) (Or.inr rfl)
  have step2 : CStep ⟨true, false, none, [TPC.waiting, TPC.start], 0⟩
      ⟨true, false, none, [TPC.waiting, TPC.waiting], 0⟩ :=
    CStep.check1Miss _ 1 (by decide) (Or.inr rfl)
  have step3 : CStep ⟨true, false, none, [TPC.waiting, TPC.waiting], 0⟩
      ⟨true, false, some 0, [TPC.locked, TPC.waiting], 0⟩ :=
    CStep.acquire _ 0 (by decide) rfl
  have step4 : CStep ⟨true, false, some 0, [TPC.locked, TPC.waiting], 0⟩
      ⟨true, false, some 0, [TPC.storing, TPC.waiting], 1⟩ :=
    CStep.parse _ 0 (by decide) rfl (Or.inr rfl)
  have step5 : CStep ⟨true, false, some 0, [TPC.storing, TPC.waiting], 1⟩
      ⟨true, true, none, [TPC.done, TPC.waiting], 1⟩ :=
    CStep.storeRelease _ 0 (by decide) rfl
  have step6 : CStep ⟨true, true, none, [TPC.done, TPC.waiting], 1⟩
      ⟨true, true, some 1, [TPC.done, TPC.locked], 1⟩ :=
    CStep.acquire _ 1 (by decide) rfl
  have step7 : CStep ⟨true, true, some 1, [TPC.done, TPC.locked], 1⟩
      ⟨true, true, none, [TPC.done, TPC.done], 1⟩ :=
    CStep.check2Hit _ 1 (by decide) rfl rfl rfl
  exact ((((((Relation.ReflTransGen.refl.tail step1).tail step2).tail
    step3).tail step4).tail step5).tail step6).tail step7

theorem hexVal_digitChar {d : Nat} (h : d < 16) :
    hexVal (Nat.digitChar d) = d := by
  interval_cases d <;> decide

theorem foldl_hex (l : List Char) : ∀ a : Nat,
    l.foldl (fun x c => 16 * x + hexVal c) a =
      a * 16 ^ l.length + decodeHex l := by
  induction l with
  | nil => intro a; simp [decodeHex]
  | cons c l ih =>
    intro a
    have h1 : decodeHex (c :: l) = hexVal c * 16 ^ l.length + decodeHex l := by
      simp only [decodeHex, List.foldl_cons]
      rw [ih (16 * 0 + hexVal c)]
      ring_nf
      rfl
    simp only [List.foldl_cons, List.length_cons]
    rw [ih (16 * a + hexVal c), h1]
    ring

theorem decodeHex_hexCharsAux : ∀ (f n : Nat) (acc : List Char),
    n < 16 ^ f →
    decodeHex (hexCharsAux f n acc) = n * 16 ^ acc.length + decodeHex acc := by
  intro f
  induction f with
  | zero =>
    intro n acc h
    have hn : n = 0 := by
      have h1 : n < 1 := by simpa using h
      omega
    subst hn
    simp [hexCharsAux]
  | succ f ih =>
    intro n acc h
    by_cases h16 : n < 16
    · simp only [hexCharsAux, if_pos h16]
      simp only [decodeHex, List.foldl_cons]
      rw [foldl_hex, hexVal_digitChar h16]
      ring_nf
      rfl
    · simp only [hexCharsAux, if_neg h16]
      have hdiv : n / 16 < 16 ^ f := by
        rw [Nat.div_lt_iff_lt_mul (by norm_num : 0 < 16)]
        calc n < 16 ^ (f + 1) := h
          _ = 16 ^ f * 16 := by rw [pow_succ]
      rw [ih (n / 16) (Nat.digitChar (n % 16) :: acc) hdiv]
      have hmod : hexVal (Nat.digitChar (n % 16)) = n % 16 :=
        hexVal_digitChar (Nat.mod_lt n (by norm_num))
      have h2 : decodeHex (Nat.digitChar (n % 16) :: acc) =
          (n % 16) * 16 ^ acc.length + decodeHex acc := by
        simp only [decodeHex, List.foldl_cons]
        rw [foldl_hex, hmod]
        ring_nf
        rfl
      rw [h2]
      simp only [List.length_cons]
      have hdm := Nat.div_add_mod n 16
      rw [pow_succ]
      conv_rhs => rw [← hdm]
      ring

theorem natHex_decode (n : Nat) : decodeHex (natHex n).data = n := by
  have hlt : n < 16 ^ (n + 1) :=
    calc n < 2 ^ n := Nat.lt_two_pow n
      _ ≤ 2 ^ (n + 1) := Nat.pow_le_pow_right (by norm_num) (Nat.le_succ n)
      _ ≤ 16 ^ (n + 1) := Nat.pow_le_pow_left (by norm_num) (n + 1)
  have h := decodeHex_hexCharsAux (n + 1) n [] hlt
  simpa [natHex, decodeHex] using h

theorem generateCacheKey_ptr_inj (ts : List String) (a b : Nat)
    (hne : a ≠ b) : generateCacheKey ts a ≠ generateCacheKey ts b := by
  intro h
  apply hne
  unfold generateCacheKey at h
  have hd := congrArg String.data h
  simp only [String.data_append] at hd
  have hd2 := List.append_cancel_left hd
  have hda : (natHex a).data = (natHex b).data := hd2
  rw [← natHex_decode a, ← natHex_decode b, hda]

theorem getGlobalDataV_root (f : Nat) (st : Store) (p : Partial)
    (hp : p.parent = none) : getGlobalDataV f st p = (st, p.globalData) := by
  cases f <;> simp [getGlobalDataV, hp]

theorem getLayoutDataV_root (f : Nat) (st : Store) (p : Partial)
    (hp : p.parent = none) : getLayoutDataV f st p = (st, p.layoutData) := by
  cases f <;> simp [getLayoutDataV, hp]

theorem getFuncMapV_root (f : Nat) (st : Store) (p : Partial)
    (hp : p.parent = none) :
    getFuncMapV f st p = (st, p.combinedFunctions) := by
  cases f <;> simp [getFuncMapV, hp]

theorem buildData_root (f : Nat) (st : Store) (p : Partial)
    (r : Option Request) (hp : p.parent = none) :
    buildData f st p r =
      (st, { url := r.bind Request.url, data := st.mapAt p.data,
             service := st.mapAt p.globalData,
             layout := st.mapAt p.layoutData }) := by
  simp [buildData, getGlobalDataV_root f st p hp, getLayoutDataV_root f st p hp]

theorem getFuncsV_root (f : Nat) (st : Store) (p : Partial)
    (hp : p.parent = none) :
    getFuncsV f st p =
      (st.setFuncs p.combinedFunctions
        (installBuiltins (st.funcsAt p.combinedFunctions)),
       p.combinedFunctions) := by
  simp [getFuncsV, getFuncMapV_root f st p hp]

theorem renderSelfV_root_run (E : Engine) (H : Hooks) (f : Nat) (st : Store)
    (p : Partial) (r : Option Request) (t : Nat)
    (hp : p.parent = none) (hte : p.templates ≠ []) (ha : p.action = none)
    (hu : p.useCache = true)
    (hm : mget st.cache
      (generateCacheKey p.templates p.combinedFunctions) = none)
    (hpar : E.parse p.templates = Except.ok t)
    (hex : ∀ (t' : Nat) (q : Partial) (d : Data), (E.exec t' q d).2 = none) :
    renderSelfV E H f st p r =
      ({ st with
          funcs := hset st.funcs p.combinedFunctions
            (installBuiltins (st.funcsAt p.combinedFunctions)),
          cache := (generateCacheKey p.templates p.combinedFunctions, t) ::
            st.cache,
          parses := st.parses + 1, execs := st.execs + 1 },
        (E.exec t p
          { url := r.bind Request.url, data := st.mapAt p.data,
            service := st.mapAt p.globalData,
            layout := st.mapAt p.layoutData }).1, none) := by
  simp only [renderSelfV, if_neg hte, ha, buildData_root f st p r hp,
    renderCore, getFuncsV_root f st p hp, getOrParseTemplate,
    Store.setFuncs, hm, hu, hpar, hex]
  simp [hex]

theorem renderSelfV_root_hit (E : Engine) (H : Hooks) (f : Nat) (st : Store)
    (p : Partial) (r : Option Request) (t : Nat)
    (hp : p.parent = none) (hte : p.templates ≠ []) (ha : p.action = none)
    (hu : p.useCache = true)
    (hm : mget st.cache
      (generateCacheKey p.templates p.combinedFunctions) = some t)
    (hex : ∀ (t' : Nat) (q : Partial) (d : Data), (E.exec t' q d).2 = none) :
    renderSelfV E H f st p r =
      ({ st with
          funcs := hset st.funcs p.combinedFunctions
            (installBuiltins (st.funcsAt p.combinedFunctions)),
          execs := st.execs + 1 },
        (E.exec t p
          { url := r.bind Request.url, data := st.mapAt p.data,
            service := st.mapAt p.globalData,
            layout := st.mapAt p.layoutData }).1, none) := by
  simp only [renderSelfV, if_neg hte, ha, buildData_root f st p r hp,
    renderCore, getFuncsV_root f st p hp, getOrParseTemplate,
    Store.setFuncs, hm, hu, hex]

/-- C3 (amended): the cache key is a function of the template identifier
list and the function map's pointer identity, not of its signature:
distinct function-map instances always yield distinct cache keys
(conjunct 1); two renders of the same node with caching enabled reuse the
compiled artifact — the second render performs no parse and returns the
same markup (conjunct 2); and rendering two nodes that share the template
list but hold different function-map instances compiles twice — they
never share an artifact, even when the two maps are extensionally
identical (conjunct 3, and the counterexample). -/
theorem C3_cache_key_is_map_identity :
    (∀ (ts : List String) (a b : Nat), a ≠ b →
        generateCacheKey ts a ≠ generateCacheKey ts b) ∧
    (∀ (E : Engine) (H : Hooks) (f : Nat) (st : Store) (p : Partial)
        (r : Option Request) (t : Nat),
        p.parent = none → p.templates ≠ [] → p.action = none →
        p.useCache = true →
        mget st.cache (generateCacheKey p.templates p.combinedFunctions) =
          none →
        E.parse p.templates = Except.ok t →
        (∀ (t' : Nat) (q : Partial) (d : Data), (E.exec t' q d).2 = none) →
        (renderSelfV E H f st p r).1.parses = st.parses + 1 ∧
        (renderSelfV E H f (renderSelfV E H f st p r).1 p r).1.parses =
          st.parses + 1 ∧
        (renderSelfV E H f (renderSelfV E H f st p r).1 p r).2 =
          (renderSelfV E H f st p r).2) ∧
    (∀ (E : Engine) (H : Hooks) (f : Nat) (st : Store) (p q : Partial)
        (r : Option Request) (t : Nat),
        p.parent = none → p.templates ≠ [] → p.action = none →
        p.useCache = true →
        q.parent = none → q.action = none → q.useCache = true →
        q.templates = p.templates →
        q.combinedFunctions ≠ p.combinedFunctions →
        mget st.cache (generateCacheKey p.templates p.combinedFunctions) =
          none →
        mget st.cache (generateCacheKey q.templates q.combinedFunctions) =
          none →
        E.parse p.templates = Except.ok t →
        (∀ (t' : Nat) (q' : Partial) (d : Data), (E.exec t' q' d).2 = none) →
        (renderSelfV E H f (renderSelfV E H f st p r).1 q r).1.parses =
          st.parses + 2) := by
  refine ⟨generateCacheKey_ptr_inj, ?_, ?_⟩
  · intro E H f st p r t hp hte ha hu hm hpar hex
    have h1 := renderSelfV_root_run E H f st p r t hp hte ha hu hm hpar hex
    have hm2 : mget ((renderSelfV E H f st p r).1).cache
        (generateCacheKey p.templates p.combinedFunctions) = some t := by
      rw [h1]
      simp [mget]
    have h2 := renderSelfV_root_hit E H f ((renderSelfV E H f st p r).1) p r
      t hp hte ha hu hm2 hex
    refine ⟨by rw [h1], ?_, ?_⟩
    · rw [h2, h1]
    · rw [h2, h1]
      rfl
  · intro E H f st p q r t hp hte ha hu hq haq huq hqt hneq hm1 hm2 hpar hex
    have h1 := renderSelfV_root_run E H f st p r t hp hte ha hu hm1 hpar hex
    have hkey : generateCacheKey p.templates p.combinedFunctions ≠
        generateCacheKey q.templates q.combinedFunctions := by
      rw [hqt]
      exact generateCacheKey_ptr_inj p.templates _ _ fun he => hneq he.symm
    have hmq : mget ((renderSelfV E H f st p r).1).cache
        (generateCacheKey q.templates q.combinedFunctions) = none := by
      rw [h1]
      simp only [mget]
      rw [if_neg hkey]
      exact hm2
    have hteq : q.templates ≠ [] := by rw [hqt]; exact hte
    have hparq : E.parse q.templates = Except.ok t := by rw [hqt]; exact hpar
    have h2 := renderSelfV_root_run E H f ((renderSelfV E H f st p r).1) q r
      t hq hteq haq huq hmq hparq hex
    rw [h2, h1]

/-- C3 counterexample: two root nodes with the same template list,
caching enabled and extensionally identical function tables held in
distinct map instances: after rendering both, two parses have happened —
the claim's "identical function-table signatures … no second parse" is
false, because the key uses the map pointer, not the signature. -/
theorem C3_counterexample_identical_signatures_reparse :
    c3NodeA.templates = c3NodeB.templates ∧
    c3Store.funcsAt c3NodeA.combinedFunctions =
      c3Store.funcsAt c3NodeB.combinedFunctions ∧
    c3NodeA.combinedFunctions ≠ c3NodeB.combinedFunctions ∧
    c3NodeA.useCache = true ∧ c3NodeB.useCache = true ∧
    (renderSelfV egEngine egHooks 1 c3Store c3NodeA none).1.parses = 1 ∧
    (renderSelfV egEngine egHooks 1
      (renderSelfV egEngine egHooks 1 c3Store c3NodeA none).1 c3NodeB
      none).1.parses = 2 := by decide

/-- C3 witness: pointer-distinct keys differ; the same node rendered
twice parses once; two pointer-distinct nodes parse twice. -/
theorem C3_witness :
    generateCacheKey ["tpl.html"] 0 ≠ generateCacheKey ["tpl.html"] 5 ∧
    ((renderSelfV egEngine egHooks 1 c3Store c3NodeA none).1.parses =
        c3Store.parses + 1 ∧
      (renderSelfV egEngine egHooks 1
        (renderSelfV egEngine egHooks 1 c3Store c3NodeA none).1 c3NodeA
        none).1.parses = c3Store.parses + 1 ∧
      (renderSelfV egEngine egHooks 1
        (renderSelfV egEngine egHooks 1 c3Store c3NodeA none).1 c3NodeA
        none).2 =
        (renderSelfV egEngine egHooks 1 c3Store c3NodeA none).2) ∧
    (renderSelfV egEngine egHooks 1
      (renderSelfV egEngine egHooks 1 c3Store c3NodeA none).1 c3NodeB
      none).1.parses = c3Store.parses + 2 :=
  ⟨C3_cache_key_is_map_identity.1 ["tpl.html"] 0 5 (by decide),
   C3_cache_key_is_map_identity.2.1 egEngine egHooks 1 c3Store c3NodeA none
     101 (by decide) (by decide) (by decide) (by decide) rfl rfl
     (fun _ _ _ => rfl),
   C3_cache_key_is_map_identity.2.2 egEngine egHooks 1 c3Store c3NodeA
     c3NodeB none 101 (by decide) (by decide) (by decide) (by decide)
     (by decide) (by decide) (by decide) (by decide) (by decide) rfl rfl
     rfl (fun _ _ _ => rfl)⟩

/-- C6 witness: termination on the duplicate-id store, direct-child
lookup in the example tree, and the three-level lookup on the chain with
distinct intermediate ids. -/
theorem C6_witness :
    (∃ f₀ r, ∀ f, f₀ ≤ f → rclF c6Store "t" f [4] ∅ = some r) ∧
    recursiveChildLookup egStore egRootA "content" = some egContentA ∧
    recursiveChildLookup c6StoreD 4 "t" = some 19 :=
  ⟨C6_lookup_terminates_and_finds.1 c6Store 4 "t",
   C6_lookup_terminates_and_finds.2.1 egStore egRootA "content"
     ((egStore.node egRootA).getD dummyNode) egContentA (by decide)
     (by decide),
   C6_lookup_terminates_and_finds.2.2 c6StoreD 4 9 14 19
     ((c6StoreD.node 4).getD dummyNode) ((c6StoreD.node 9).getD dummyNode)
     ((c6StoreD.node 14).getD dummyNode) ((c6StoreD.node 19).getD dummyNode)
     "t" (by decide) (by decide) (by decide) (by decide) (by decide)
     (by decide) (by decide) (by decide) (by decide) (by decide)
     (by decide) (by decide) (by decide) (by decide) (by decide)⟩

/-! ### C8: frame lemmas — the child-render path never writes the node
heap, and its map writes stay on the parent's global/layout maps and on
fresh (cloned) addresses. -/

theorem getGlobalDataV_maps_d1 (f : Nat) (st : Store) (p : Partial)
    (a : Nat) (par : Partial) (x : Nat)
    (hpa : p.parent = some a) (hnode : st.node a = some par)
    (hroot : par.parent = none) (hx : x ≠ par.globalData) :
    hget (getGlobalDataV f st p).1.maps x = hget st.maps x := by
  cases f with
  | zero => rfl
  | succ f =>
    simp only [getGlobalDataV, hpa, hnode,
      getGlobalDataV_root f st par hroot, Store.setMap]
    exact hget_hset_ne _ _ _ _ hx

theorem getLayoutDataV_maps_d1 (f : Nat) (st : Store) (p : Partial)
    (a : Nat) (par : Partial) (x : Nat)
    (hpa : p.parent = some a) (hnode : st.node a = some par)
    (hroot : par.parent = none) (hx : x ≠ par.layoutData) :
    hget (getLayoutDataV f st p).1.maps x = hget st.maps x := by
  cases f with
  | zero => rfl
  | succ f =>
    simp only [getLayoutDataV, hpa, hnode,
      getLayoutDataV_root f st par hroot, Store.setMap]
    exact hget_hset_ne _ _ _ _ hx

theorem buildData_maps_d1 (f : Nat) (st : Store) (p : Partial)
    (r : Option Request) (a : Nat) (par : Partial) (x : Nat)
    (hpa : p.parent = some a) (hnode : st.node a = some par)
    (hroot : par.parent = none)
    (hg : x ≠ par.globalData) (hl : x ≠ par.layoutData) :
    hget (buildData f st p r).1.maps x = hget st.maps x := by
  obtain ⟨m1, h1⟩ := getGlobalDataV_shape f st p
  have hnode2 : (getGlobalDataV f st p).1.node a = some par := by
    rw [h1]
    exact hnode
  simp only [buildData]
  rw [getLayoutDataV_maps_d1 f (getGlobalDataV f st p).1 p a par x hpa
    hnode2 hroot hl]
  exact getGlobalDataV_maps_d1 f st p a par x hpa hnode hroot hg

theorem getOrParseTemplate_maps (E : Engine) (st : Store) (p : Partial)
    (key : String) : (getOrParseTemplate E st p key).1.maps = st.maps := by
  unfold getOrParseTemplate
  split
  · rfl
  · split
    · rfl
    · split <;> rfl

theorem renderCore_maps (E : Engine) (f : Nat) (st : Store) (q : Partial)
    (d : Data) : (renderCore E f st q d).1.maps = st.maps := by
  have hfr : (getFuncsV f st q).1.maps = st.maps := by
    obtain ⟨fn, h⟩ := getFuncMapV_shape f st q
    simp only [getFuncsV, Store.setFuncs]
    rw [h]
  have hgo := getOrParseTemplate_maps E (getFuncsV f st q).1 q
    (generateCacheKey q.templates (getFuncsV f st q).2)
  simp only [renderCore]
  split
  next st3 e heq =>
    rw [heq] at hgo
    show st3.maps = st.maps
    rw [← hfr]
    exact hgo
  next st3 t heq =>
    rw [heq] at hgo
    split <;>
      (show st3.maps = st.maps
       rw [← hfr]
       exact hgo)

theorem renderSelfV_maps_d1 (E : Engine) (H : Hooks) (f : Nat) (st : Store)
    (p : Partial) (r : Option Request) (a : Nat) (par : Partial) (x : Nat)
    (hpa : p.parent = some a) (hnode : st.node a = some par)
    (hroot : par.parent = none) (hact : p.action = none)
    (hg : x ≠ par.globalData) (hl : x ≠ par.layoutData) :
    hget (renderSelfV E H f st p r).1.maps x = hget st.maps x := by
  by_cases hte : p.templates = []
  · simp [renderSelfV, hte]
  · simp only [renderSelfV, if_neg hte, hact]
    rw [renderCore_maps]
    exact buildData_maps_d1 f st p r a par x hpa hnode hroot hg hl

theorem renderSelfV_maps_over (E : Engine) (H : Hooks) (f : Nat)
    (st st2 : Store) (c1 : Partial) (r : Option Request) (a : Nat)
    (par : Partial) (x : Nat)
    (hpar : st.node a = some par) (hroot : par.parent = none)
    (hc1p : c1.parent = some a) (hc1a : c1.action = none)
    (hg : x ≠ par.globalData) (hl : x ≠ par.layoutData)
    (hst2 : st2.nodes = st.nodes)
    (hmaps : hget st2.maps x = hget st.maps x) :
    hget (renderSelfV E H f st2 c1 r).1.maps x = hget st.maps x := by
  have hnode2 : st2.node a = some par := by
    unfold Store.node
    rw [hst2]
    exact hpar
  rw [renderSelfV_maps_d1 E H f st2 c1 r a par x hc1p hnode2 hroot hc1a
    hg hl]
  exact hmaps

theorem clone_maps_lt (st : Store) (p : Partial) (x : Nat)
    (hx : x < st.next) :
    hget (clone st p).1.maps x = hget st.maps x := by
  simp only [clone, Store.allocFuncs, Store.allocMap, hget]
  rw [if_neg (by omega), if_neg (by omega), if_neg (by omega)]

theorem MergeDataV_maps_ne (st : Store) (p : Partial) (dm : AssocMap)
    (ov : Bool) (x : Nat) (hx : x ≠ p.data) :
    hget (MergeDataV st p dm ov).maps x = hget st.maps x := by
  simp only [MergeDataV, Store.setMap]
  exact hget_hset_ne _ _ _ _ hx

/-- C8: rendering a child through the template-visible child-insertion
path (`renderChildPartial`, which clones the child, reparents the clone
and merges the call data into the clone only) leaves the original child
untouched: for a parent that is a root node, a child whose data map is
already allocated (its address lies below the store's allocation
frontier) and is not aliased to the parent's global or layout map, the
original child node record and the full contents of its data map are
unchanged after the call, for any extra data-map argument. -/
theorem C8_child_render_preserves_original (E : Engine) (H : Hooks)
    (f : Nat) (st : Store) (a ca : Nat) (cid : String)
    (par child : Partial) (data : Option AssocMap)
    (hpar : st.node a = some par) (hroot : par.parent = none)
    (hch : mget par.children cid = some ca)
    (hchild : st.node ca = some child)
    (hlt : child.data < st.next)
    (hg : child.data ≠ par.globalData)
    (hl : child.data ≠ par.layoutData) :
    (renderChildPartial E H f st a cid data).1.node ca = some child ∧
    (renderChildPartial E H f st a cid data).1.mapAt child.data =
      st.mapAt child.data := by
  cases data with
  | none =>
    constructor
    · simp only [renderChildPartial, hpar, hch, hchild]
      unfold Store.node
      rw [renderSelfV_nodes]
      exact hchild
    · simp only [renderChildPartial, hpar, hch, hchild]
      unfold Store.mapAt
      refine congrArg (fun o => o.getD [])
        (renderSelfV_maps_over E H f st _ _ _ a par child.data hpar hroot
          ?_ ?_ hg hl ?_ ?_)
      · rfl
      · rfl
      · rfl
      · exact clone_maps_lt st child child.data hlt
  | some dm =>
    constructor
    · simp only [renderChildPartial, hpar, hch, hchild]
      unfold Store.node
      rw [renderSelfV_nodes]
      exact hchild
    · simp only [renderChildPartial, hpar, hch, hchild]
      unfold Store.mapAt
      refine congrArg (fun o => o.getD [])
        (renderSelfV_maps_over E H f st _ _ _ a par child.data hpar hroot
          ?_ ?_ hg hl ?_ ?_)
      · rfl
      · rfl
      · rfl
      · rw [MergeDataV_maps_ne]
        · exact clone_maps_lt st child child.data hlt
        · show child.data ≠ st.next + 1
          omega

/-- C8 witness: rendering the "content" child of the example root with
extra call data leaves the original content node and its data map
unchanged. -/
theorem C8_witness :
    (renderChildPartial egEngine egHooks 2 egStoreT egRootA "content"
      (some [("K", "V")])).1.node egContentA = some egContent ∧
    (renderChildPartial egEngine egHooks 2 egStoreT egRootA "content"
      (some [("K", "V")])).1.mapAt egContent.data =
      egStoreT.mapAt egContent.data :=
  C8_child_render_preserves_original egEngine egHooks 2 egStoreT egRootA
    egContentA "content" egRootT egContent (some [("K", "V")]) rfl
    (by decide) (by decide) rfl (by decide) (by decide) (by decide)

end GoPartial
